import Mathlib

/-!
Verification of the ELF reader in `elf.hpp` (`elf::elf_file` and its helper
hash functions) against its natural-language specification.

The file is a shallow embedding: the opened binary file is a list of bytes
(`List Nat`, each element < 256 for encoded data), `std::ifstream` seek/read
pairs become `readAt`, the width-specific on-disk records (`Elf32_*` /
`Elf64_*`) are decoded little-endian — the source reads raw structs on an
assumed little-endian host — and the bitness-agnostic structures keep the
source's names and fields.  `std::size_t` wraparound is modelled with
`sub64`; a `std::vector::at` call that would throw `std::out_of_range`
becomes an `Except.error` outcome.
-/

deriving instance DecidableEq for Except

namespace ElfModel

/-- Value of a little-endian byte list. -/
def fromLEBytes : List Nat → Nat
  | [] => 0
  | b :: bs => b + 256 * fromLEBytes bs

/-- The `n`-byte little-endian encoding of `v` (truncating above `256^n`). -/
def toLEBytes : Nat → Nat → List Nat
  | 0, _ => []
  | n + 1, v => v % 256 :: toLEBytes n (v / 256)

/-- Consume `n` bytes from the front of a buffer as a little-endian value,
returning the value and the remaining bytes.  A buffer shorter than `n`
yields the value of what is there (never the case for buffers produced by a
checked `readAt`). -/
def takeLE (n : Nat) (bs : List Nat) : Nat × List Nat :=
  (fromLEBytes (bs.take n), bs.drop n)

/-- Model of `seekg(off)` followed by `read(len)` with the source's
`gcount() != len` check: the requested range must lie inside the file. -/
def readAt (file : List Nat) (off len : Nat) : Option (List Nat) :=
  if off + len ≤ file.length then some ((file.drop off).take len) else none

/-- Decode `count` consecutive fixed-size records from a buffer. -/
def decodeList (esz : Nat) (dec : List Nat → α) : Nat → List Nat → List α
  | 0, _ => []
  | n + 1, bs => dec (bs.take esz) :: decodeList esz dec n (bs.drop esz)

/-- The C string starting at `off` in a byte buffer: bytes up to the first
NUL.  This models `buffer.data() + off` viewed as a `const char *`. -/
def cString (tbl : List Nat) (off : Nat) : List Nat :=
  (tbl.drop off).takeWhile (fun b => b ≠ 0)

/-- Byte list of an ASCII string literal (for section-name comparisons). -/
def cstr (s : String) : List Nat :=
  s.data.map Char.toNat

/-- Unsigned 64-bit subtraction with wraparound, as `std::size_t` computes
`a - b`. -/
def sub64 (a b : Nat) : Nat :=
  (a % 18446744073709551616 + (18446744073709551616 - b % 18446744073709551616)) %
    18446744073709551616

/-- Reading a 4-byte field into `std::int32_t` (two's complement). -/
def asInt32 (v : Nat) : Int :=
  if v < 2147483648 then (v : Int) else (v : Int) - 4294967296

/-- Reading an 8-byte field into `std::int64_t` (two's complement). -/
def asInt64 (v : Nat) : Int :=
  if v < 9223372036854775808 then (v : Int) else (v : Int) - 18446744073709551616

/-- Whether an `Except` result is a success. -/
def exOk : Except String α → Bool
  | .ok _ => true
  | .error _ => false

end ElfModel

namespace ElfModel

/-- The 16-byte identification block `elf_ident`: 4 magic bytes, class,
data encoding, version, OS/ABI, ABI version, 7 padding bytes. -/
structure elf_ident where
  ei_magic : List Nat
  ei_class : Nat
  ei_data : Nat
  ei_version : Nat
  ei_osabi : Nat
  ei_abiversion : Nat
  ei_pad : List Nat
deriving DecidableEq

/-- Decode the identification block from its 16 raw bytes. -/
def decodeIdent (bs : List Nat) : elf_ident :=
  { ei_magic := bs.take 4
    ei_class := bs.getD 4 0
    ei_data := bs.getD 5 0
    ei_version := bs.getD 6 0
    ei_osabi := bs.getD 7 0
    ei_abiversion := bs.getD 8 0
    ei_pad := (bs.drop 9).take 7 }

/-- Raw identification bytes of an `elf_ident` (layout of the C struct). -/
def encodeIdent (i : elf_ident) : List Nat :=
  i.ei_magic ++ [i.ei_class, i.ei_data, i.ei_version, i.ei_osabi, i.ei_abiversion] ++ i.ei_pad

/-- The bitness-agnostic `elf_header` (same layout as `Elf64_Ehdr`). -/
structure elf_header where
  e_ident : elf_ident
  e_type : Nat
  e_machine : Nat
  e_version : Nat
  e_entry : Nat
  e_phoff : Nat
  e_shoff : Nat
  e_flags : Nat
  e_ehsize : Nat
  e_phentsize : Nat
  e_phnum : Nat
  e_shentsize : Nat
  e_shnum : Nat
  e_shstrndx : Nat
deriving DecidableEq

/-- The bitness-agnostic `elf_program_header`. -/
structure elf_program_header where
  p_type : Nat
  p_flags : Nat
  p_offset : Nat
  p_vaddr : Nat
  p_paddr : Nat
  p_filesz : Nat
  p_memsz : Nat
  p_align : Nat
deriving DecidableEq

/-- The bitness-agnostic `elf_section_header` (resolved name included). -/
structure elf_section_header where
  sh_name : Nat
  sh_type : Nat
  sh_flags : Nat
  sh_addr : Nat
  sh_offset : Nat
  sh_size : Nat
  sh_link : Nat
  sh_info : Nat
  sh_addralign : Nat
  sh_entsize : Nat
  sh_name_str : List Nat
deriving DecidableEq

/-- The bitness-agnostic `elf_symbol` (resolved name included). -/
structure elf_symbol where
  st_name : Nat
  st_value : Nat
  st_size : Nat
  st_info : Nat
  st_other : Nat
  st_shndx : Nat
  st_name_str : List Nat
deriving DecidableEq

/-- The bitness-agnostic `elf_dynamic`: signed tag and the value/pointer
union (one 64-bit payload viewed both ways). -/
structure elf_dynamic where
  d_tag : Int
  d_un : Nat
deriving DecidableEq

/-- The bitness-agnostic `elf_rel` (type and symbol index already split). -/
structure elf_rel where
  r_offset : Nat
  r_type : Nat
  r_sym : Nat
deriving DecidableEq

/-- The bitness-agnostic `elf_rela`. -/
structure elf_rela where
  r_offset : Nat
  r_type : Nat
  r_sym : Nat
  r_addend : Int
deriving DecidableEq

/-- Decode a 52-byte `types::Elf32_Ehdr` record (after the identification
block, all fields in declaration order) and widen it into the unified
`elf_header` exactly as `read_elf_header`'s 32-bit branch copies fields. -/
def decode_Elf32_Ehdr (bs : List Nat) : elf_header :=
  let ident := decodeIdent (bs.take 16)
  let bs := bs.drop 16
  let (e_type, bs) := takeLE 2 bs
  let (e_machine, bs) := takeLE 2 bs
  let (e_version, bs) := takeLE 4 bs
  let (e_entry, bs) := takeLE 4 bs
  let (e_phoff, bs) := takeLE 4 bs
  let (e_shoff, bs) := takeLE 4 bs
  let (e_flags, bs) := takeLE 4 bs
  let (e_ehsize, bs) := takeLE 2 bs
  let (e_phentsize, bs) := takeLE 2 bs
  let (e_phnum, bs) := takeLE 2 bs
  let (e_shentsize, bs) := takeLE 2 bs
  let (e_shnum, bs) := takeLE 2 bs
  let (e_shstrndx, _) := takeLE 2 bs
  ⟨ident, e_type, e_machine, e_version, e_entry, e_phoff, e_shoff, e_flags,
    e_ehsize, e_phentsize, e_phnum, e_shentsize, e_shnum, e_shstrndx⟩

/-- Decode a 64-byte `types::Elf64_Ehdr` record straight into the unified
`elf_header` (identical layouts; the source reads the bytes in place). -/
def decode_Elf64_Ehdr (bs : List Nat) : elf_header :=
  let ident := decodeIdent (bs.take 16)
  let bs := bs.drop 16
  let (e_type, bs) := takeLE 2 bs
  let (e_machine, bs) := takeLE 2 bs
  let (e_version, bs) := takeLE 4 bs
  let (e_entry, bs) := takeLE 8 bs
  let (e_phoff, bs) := takeLE 8 bs
  let (e_shoff, bs) := takeLE 8 bs
  let (e_flags, bs) := takeLE 4 bs
  let (e_ehsize, bs) := takeLE 2 bs
  let (e_phentsize, bs) := takeLE 2 bs
  let (e_phnum, bs) := takeLE 2 bs
  let (e_shentsize, bs) := takeLE 2 bs
  let (e_shnum, bs) := takeLE 2 bs
  let (e_shstrndx, _) := takeLE 2 bs
  ⟨ident, e_type, e_machine, e_version, e_entry, e_phoff, e_shoff, e_flags,
    e_ehsize, e_phentsize, e_phnum, e_shentsize, e_shnum, e_shstrndx⟩

/-- Canonical on-disk bytes of a `types::Elf32_Ehdr` holding the logical
field values of `h` (identification bytes passed separately, since the two
classes necessarily differ there). -/
def encode_Elf32_Ehdr (ident : List Nat) (h : elf_header) : List Nat :=
  ident ++ toLEBytes 2 h.e_type ++ toLEBytes 2 h.e_machine ++
    toLEBytes 4 h.e_version ++ toLEBytes 4 h.e_entry ++ toLEBytes 4 h.e_phoff ++
    toLEBytes 4 h.e_shoff ++ toLEBytes 4 h.e_flags ++ toLEBytes 2 h.e_ehsize ++
    toLEBytes 2 h.e_phentsize ++ toLEBytes 2 h.e_phnum ++
    toLEBytes 2 h.e_shentsize ++ toLEBytes 2 h.e_shnum ++ toLEBytes 2 h.e_shstrndx

/-- Canonical on-disk bytes of a `types::Elf64_Ehdr` holding the logical
field values of `h`. -/
def encode_Elf64_Ehdr (ident : List Nat) (h : elf_header) : List Nat :=
  ident ++ toLEBytes 2 h.e_type ++ toLEBytes 2 h.e_machine ++
    toLEBytes 4 h.e_version ++ toLEBytes 8 h.e_entry ++ toLEBytes 8 h.e_phoff ++
    toLEBytes 8 h.e_shoff ++ toLEBytes 4 h.e_flags ++ toLEBytes 2 h.e_ehsize ++
    toLEBytes 2 h.e_phentsize ++ toLEBytes 2 h.e_phnum ++
    toLEBytes 2 h.e_shentsize ++ toLEBytes 2 h.e_shnum ++ toLEBytes 2 h.e_shstrndx

/-- Decode a 32-byte `types::Elf32_Phdr` and widen it field-by-field as
`read_program_headers`'s 32-bit branch does. -/
def decode_Elf32_Phdr (bs : List Nat) : elf_program_header :=
  let (p_type, bs) := takeLE 4 bs
  let (p_offset, bs) := takeLE 4 bs
  let (p_vaddr, bs) := takeLE 4 bs
  let (p_paddr, bs) := takeLE 4 bs
  let (p_filesz, bs) := takeLE 4 bs
  let (p_memsz, bs) := takeLE 4 bs
  let (p_flags, bs) := takeLE 4 bs
  let (p_align, _) := takeLE 4 bs
  ⟨p_type, p_flags, p_offset, p_vaddr, p_paddr, p_filesz, p_memsz, p_align⟩

/-- Decode a 56-byte `types::Elf64_Phdr` straight into the unified struct. -/
def decode_Elf64_Phdr (bs : List Nat) : elf_program_header :=
  let (p_type, bs) := takeLE 4 bs
  let (p_flags, bs) := takeLE 4 bs
  let (p_offset, bs) := takeLE 8 bs
  let (p_vaddr, bs) := takeLE 8 bs
  let (p_paddr, bs) := takeLE 8 bs
  let (p_filesz, bs) := takeLE 8 bs
  let (p_memsz, bs) := takeLE 8 bs
  let (p_align, _) := takeLE 8 bs
  ⟨p_type, p_flags, p_offset, p_vaddr, p_paddr, p_filesz, p_memsz, p_align⟩

/-- Canonical on-disk bytes of a `types::Elf32_Phdr` holding the logical
field values of `p` (note the different field order of the 32-bit layout). -/
def encode_Elf32_Phdr (p : elf_program_header) : List Nat :=
  toLEBytes 4 p.p_type ++ toLEBytes 4 p.p_offset ++ toLEBytes 4 p.p_vaddr ++
    toLEBytes 4 p.p_paddr ++ toLEBytes 4 p.p_filesz ++ toLEBytes 4 p.p_memsz ++
    toLEBytes 4 p.p_flags ++ toLEBytes 4 p.p_align

/-- Canonical on-disk bytes of a `types::Elf64_Phdr`. -/
def encode_Elf64_Phdr (p : elf_program_header) : List Nat :=
  toLEBytes 4 p.p_type ++ toLEBytes 4 p.p_flags ++ toLEBytes 8 p.p_offset ++
    toLEBytes 8 p.p_vaddr ++ toLEBytes 8 p.p_paddr ++ toLEBytes 8 p.p_filesz ++
    toLEBytes 8 p.p_memsz ++ toLEBytes 8 p.p_align

/-- Decode a 40-byte `types::Elf32_Shdr` and widen it field-by-field as
`read_section_headers`'s 32-bit branch does (name resolved later). -/
def decode_Elf32_Shdr (bs : List Nat) : elf_section_header :=
  let (sh_name, bs) := takeLE 4 bs
  let (sh_type, bs) := takeLE 4 bs
  let (sh_flags, bs) := takeLE 4 bs
  let (sh_addr, bs) := takeLE 4 bs
  let (sh_offset, bs) := takeLE 4 bs
  let (sh_size, bs) := takeLE 4 bs
  let (sh_link, bs) := takeLE 4 bs
  let (sh_info, bs) := takeLE 4 bs
  let (sh_addralign, bs) := takeLE 4 bs
  let (sh_entsize, _) := takeLE 4 bs
  ⟨sh_name, sh_type, sh_flags, sh_addr, sh_offset, sh_size, sh_link, sh_info,
    sh_addralign, sh_entsize, []⟩

/-- Decode a 64-byte `types::Elf64_Shdr` straight into the unified struct
(name resolved later). -/
def decode_Elf64_Shdr (bs : List Nat) : elf_section_header :=
  let (sh_name, bs) := takeLE 4 bs
  let (sh_type, bs) := takeLE 4 bs
  let (sh_flags, bs) := takeLE 8 bs
  let (sh_addr, bs) := takeLE 8 bs
  let (sh_offset, bs) := takeLE 8 bs
  let (sh_size, bs) := takeLE 8 bs
  let (sh_link, bs) := takeLE 4 bs
  let (sh_info, bs) := takeLE 4 bs
  let (sh_addralign, bs) := takeLE 8 bs
  let (sh_entsize, _) := takeLE 8 bs
  ⟨sh_name, sh_type, sh_flags, sh_addr, sh_offset, sh_size, sh_link, sh_info,
    sh_addralign, sh_entsize, []⟩

/-- Canonical on-disk bytes of a `types::Elf32_Shdr`. -/
def encode_Elf32_Shdr (s : elf_section_header) : List Nat :=
  toLEBytes 4 s.sh_name ++ toLEBytes 4 s.sh_type ++ toLEBytes 4 s.sh_flags ++
    toLEBytes 4 s.sh_addr ++ toLEBytes 4 s.sh_offset ++ toLEBytes 4 s.sh_size ++
    toLEBytes 4 s.sh_link ++ toLEBytes 4 s.sh_info ++ toLEBytes 4 s.sh_addralign ++
    toLEBytes 4 s.sh_entsize

/-- Canonical on-disk bytes of a `types::Elf64_Shdr`. -/
def encode_Elf64_Shdr (s : elf_section_header) : List Nat :=
  toLEBytes 4 s.sh_name ++ toLEBytes 4 s.sh_type ++ toLEBytes 8 s.sh_flags ++
    toLEBytes 8 s.sh_addr ++ toLEBytes 8 s.sh_offset ++ toLEBytes 8 s.sh_size ++
    toLEBytes 4 s.sh_link ++ toLEBytes 4 s.sh_info ++ toLEBytes 8 s.sh_addralign ++
    toLEBytes 8 s.sh_entsize

/-- Decode a 16-byte `types::Elf32_Sym` and widen it field-by-field as
`parse_dynamic_segment`'s 32-bit symbol loop does (name resolved later). -/
def decode_Elf32_Sym (bs : List Nat) : elf_symbol :=
  let (st_name, bs) := takeLE 4 bs
  let (st_value, bs) := takeLE 4 bs
  let (st_size, bs) := takeLE 4 bs
  let (st_info, bs) := takeLE 1 bs
  let (st_other, bs) := takeLE 1 bs
  let (st_shndx, _) := takeLE 2 bs
  ⟨st_name, st_value, st_size, st_info, st_other, st_shndx, []⟩

/-- Decode a 24-byte `types::Elf64_Sym` straight into the unified struct
(name resolved later). -/
def decode_Elf64_Sym (bs : List Nat) : elf_symbol :=
  let (st_name, bs) := takeLE 4 bs
  let (st_info, bs) := takeLE 1 bs
  let (st_other, bs) := takeLE 1 bs
  let (st_shndx, bs) := takeLE 2 bs
  let (st_value, bs) := takeLE 8 bs
  let (st_size, _) := takeLE 8 bs
  ⟨st_name, st_value, st_size, st_info, st_other, st_shndx, []⟩

/-- Canonical on-disk bytes of a `types::Elf32_Sym` (note the different
field order of the 32-bit layout). -/
def encode_Elf32_Sym (s : elf_symbol) : List Nat :=
  toLEBytes 4 s.st_name ++ toLEBytes 4 s.st_value ++ toLEBytes 4 s.st_size ++
    toLEBytes 1 s.st_info ++ toLEBytes 1 s.st_other ++ toLEBytes 2 s.st_shndx

/-- Canonical on-disk bytes of a `types::Elf64_Sym`. -/
def encode_Elf64_Sym (s : elf_symbol) : List Nat :=
  toLEBytes 4 s.st_name ++ toLEBytes 1 s.st_info ++ toLEBytes 1 s.st_other ++
    toLEBytes 2 s.st_shndx ++ toLEBytes 8 s.st_value ++ toLEBytes 8 s.st_size

/-- Decode an 8-byte `types::Elf32_Dyn`; the signed 32-bit tag is widened
(sign-extended) into the unified 64-bit tag. -/
def decode_Elf32_Dyn (bs : List Nat) : elf_dynamic :=
  let (d_tag, bs) := takeLE 4 bs
  let (d_un, _) := takeLE 4 bs
  ⟨asInt32 d_tag, d_un⟩

/-- Decode a 16-byte `types::Elf64_Dyn` straight into the unified struct. -/
def decode_Elf64_Dyn (bs : List Nat) : elf_dynamic :=
  let (d_tag, bs) := takeLE 8 bs
  let (d_un, _) := takeLE 8 bs
  ⟨asInt64 d_tag, d_un⟩

/-- Decode an 8-byte `types::Elf32_Rel`, unpacking `r_info` as the source
does: low 8 bits are the type, the rest the symbol index. -/
def decode_Elf32_Rel (bs : List Nat) : elf_rel :=
  let (r_offset, bs) := takeLE 4 bs
  let (r_info, _) := takeLE 4 bs
  ⟨r_offset, r_info % 256, r_info / 256⟩

/-- Decode a 16-byte `types::Elf64_Rel` as the source reads it in place:
the unified `r_type`/`r_sym` pair overlays `r_info`'s low and high words
on a little-endian host. -/
def decode_Elf64_Rel (bs : List Nat) : elf_rel :=
  let (r_offset, bs) := takeLE 8 bs
  let (r_type, bs) := takeLE 4 bs
  let (r_sym, _) := takeLE 4 bs
  ⟨r_offset, r_type, r_sym⟩

/-- Decode a 12-byte `types::Elf32_Rela` (signed addend sign-extended). -/
def decode_Elf32_Rela (bs : List Nat) : elf_rela :=
  let (r_offset, bs) := takeLE 4 bs
  let (r_info, bs) := takeLE 4 bs
  let (r_addend, _) := takeLE 4 bs
  ⟨r_offset, r_info % 256, r_info / 256, asInt32 r_addend⟩

/-- Decode a 24-byte `types::Elf64_Rela` as read in place. -/
def decode_Elf64_Rela (bs : List Nat) : elf_rela :=
  let (r_offset, bs) := takeLE 8 bs
  let (r_type, bs) := takeLE 4 bs
  let (r_sym, bs) := takeLE 4 bs
  let (r_addend, _) := takeLE 8 bs
  ⟨r_offset, r_type, r_sym, asInt64 r_addend⟩

/-- The 13 width-independent header fields (everything but `e_ident`). -/
def headerFields (h : elf_header) : List Nat :=
  [h.e_type, h.e_machine, h.e_version, h.e_entry, h.e_phoff, h.e_shoff,
    h.e_flags, h.e_ehsize, h.e_phentsize, h.e_phnum, h.e_shentsize,
    h.e_shnum, h.e_shstrndx]

/-- The classic ELF symbol hash (`elf::elf_hash`).  The source computes in
`std::uint_fast32_t` (64-bit on the assumed host), so the shift-add is
taken modulo `2^64`; the top-nibble fold keeps the value below 32 bits. -/
def elf_hash (name : List Nat) : Nat :=
  name.foldl
    (fun h c =>
      let h1 := (h * 16 + c) % 18446744073709551616
      let g := h1 &&& 0xf0000000
      let h2 := if g ≠ 0 then h1 ^^^ (g >>> 24) else h1
      h2 &&& (18446744073709551615 ^^^ g))
    0

/-- The GNU symbol hash (`elf::gnu_hash`): djb2 over the bytes, computed in
the host's 64-bit `uint_fast32_t` and masked to 32 bits at the end. -/
def gnu_hash (name : List Nat) : Nat :=
  (name.foldl (fun h c => (h * 33 + c) % 18446744073709551616) 5381) % 4294967296

/-- Model of `elf_file::read_elf_header`: read the 16 identification bytes,
then branch on the class byte alone — the magic bytes are never compared —
reading the width-appropriate header record. -/
def read_elf_header (file : List Nat) : Except String elf_header :=
  match readAt file 0 16 with
  | none => .error "Failed to read ELF identification"
  | some identBytes =>
    let ident := decodeIdent identBytes
    if ident.ei_class = 2 then
      match readAt file 0 64 with
      | none => .error "Failed to read ELF header"
      | some bs => .ok (decode_Elf64_Ehdr bs)
    else if ident.ei_class = 1 then
      match readAt file 0 52 with
      | none => .error "Failed to read ELF header"
      | some bs => .ok (decode_Elf32_Ehdr bs)
    else
      .error "Invalid ELF class"

/-- The base-address fold at the end of `read_program_headers`: start from
the all-ones sentinel and take the minimum `p_vaddr` over `PT_LOAD` (= 1)
segments. -/
def computeBaseAddress (phs : List elf_program_header) : Nat :=
  phs.foldl
    (fun acc ph => if ph.p_type = 1 then min acc ph.p_vaddr else acc)
    18446744073709551615

/-- Model of `elf_file::read_program_headers`: validate the declared entry
size against the width's on-disk record size, read and decode the table,
then compute the base address. -/
def read_program_headers (file : List Nat) (hdr : elf_header) :
    Except String (List elf_program_header × Nat) :=
  if hdr.e_ident.ei_class = 2 then
    if hdr.e_phentsize ≠ 56 then .error "Invalid program header size"
    else
      match readAt file hdr.e_phoff (hdr.e_phnum * 56) with
      | none => .error "Failed to read program headers"
      | some bs =>
        let phs := decodeList 56 decode_Elf64_Phdr hdr.e_phnum bs
        .ok (phs, computeBaseAddress phs)
  else
    if hdr.e_phentsize ≠ 32 then .error "Invalid program header size"
    else
      match readAt file hdr.e_phoff (hdr.e_phnum * 32) with
      | none => .error "Failed to read program headers"
      | some bs =>
        let phs := decodeList 32 decode_Elf32_Phdr hdr.e_phnum bs
        .ok (phs, computeBaseAddress phs)

/-- Model of `elf_file::read_section_headers`: validate entry size, decode
the table, locate the section-name string table (following the
`SHN_XINDEX` escape through section 0's link field), read it, and resolve
every section's name view.  An out-of-range section index — undefined
behaviour of the source's `operator[]` — is modelled as an error. -/
def read_section_headers (file : List Nat) (hdr : elf_header) :
    Except String (List elf_section_header × List Nat) :=
  let decoded : Except String (List elf_section_header) :=
    if hdr.e_ident.ei_class = 2 then
      if hdr.e_shentsize ≠ 64 then .error "Invalid section header size"
      else
        match readAt file hdr.e_shoff (hdr.e_shnum * 64) with
        | none => .error "Failed to read section header"
        | some bs => .ok (decodeList 64 decode_Elf64_Shdr hdr.e_shnum bs)
    else
      if hdr.e_shentsize ≠ 40 then .error "Invalid section header size"
      else
        match readAt file hdr.e_shoff (hdr.e_shnum * 40) with
        | none => .error "Failed to read section headers"
        | some bs => .ok (decodeList 40 decode_Elf32_Shdr hdr.e_shnum bs)
  match decoded with
  | .error e => .error e
  | .ok shs =>
    let idxE : Except String Nat :=
      if hdr.e_shstrndx = 0xffff then
        match shs.get? 0 with
        | none => .error "out of bounds access"
        | some s0 => .ok s0.sh_link
      else .ok hdr.e_shstrndx
    match idxE with
    | .error e => .error e
    | .ok idx =>
      match shs.get? idx with
      | none => .error "out of bounds access"
      | some strSec =>
        match readAt file strSec.sh_offset strSec.sh_size with
        | none => .error "Failed to read section header string table"
        | some tbl =>
          .ok (shs.map (fun sh => { sh with sh_name_str := cString tbl sh.sh_name }), tbl)

/-- The `.preinit_array` part of `read_init_functions`: decode the address
array (8-byte entries for 64-bit sources, 4-byte for 32-bit). -/
def read_preinit_piece (file : List Nat) (is64 : Bool) (shs : List elf_section_header) :
    Except String (List Nat) :=
  match shs.find? (fun hdr => hdr.sh_name_str = cstr ".preinit_array") with
  | none => .ok []
  | some sh =>
    let esz := if is64 then 8 else 4
    if sh.sh_size % esz ≠ 0 then .error "Invalid preinit array size"
    else
      match readAt file sh.sh_offset sh.sh_size with
      | none => .error "Failed to read preinit array"
      | some bs => .ok (decodeList esz fromLEBytes (sh.sh_size / esz) bs)

/-- The `.init` part of `read_init_functions`: the section's own address,
if the section exists. -/
def read_init_section_piece (shs : List elf_section_header) : List Nat :=
  match shs.find? (fun hdr => hdr.sh_name_str = cstr ".init") with
  | none => []
  | some sh => [sh.sh_addr]

/-- The `.init_array` part of `read_init_functions` (the source reuses the
preinit error strings here). -/
def read_init_array_piece (file : List Nat) (is64 : Bool) (shs : List elf_section_header) :
    Except String (List Nat) :=
  match shs.find? (fun hdr => hdr.sh_name_str = cstr ".init_array") with
  | none => .ok []
  | some sh =>
    let esz := if is64 then 8 else 4
    if sh.sh_size % esz ≠ 0 then .error "Invalid preinit array size"
    else
      match readAt file sh.sh_offset sh.sh_size with
      | none => .error "Failed to read preinit array"
      | some bs => .ok (decodeList esz fromLEBytes (sh.sh_size / esz) bs)

/-- Model of `elf_file::read_init_functions`: pre-init array, then the
`.init` section's address, then the init array, in that order. -/
def read_init_functions (file : List Nat) (is64 : Bool)
    (shs : List elf_section_header) : Except String (List Nat) := do
  let pre ← read_preinit_piece file is64 shs
  let arr ← read_init_array_piece file is64 shs
  pure (pre ++ read_init_section_piece shs ++ arr)

/-- The `.fini_array` part of `read_term_functions`: decoded addresses in
reverse file order (the source reverses in place / copies backwards). -/
def read_fini_array_piece (file : List Nat) (is64 : Bool) (shs : List elf_section_header) :
    Except String (List Nat) :=
  match shs.find? (fun hdr => hdr.sh_name_str = cstr ".fini_array") with
  | none => .ok []
  | some sh =>
    let esz := if is64 then 8 else 4
    if sh.sh_size % esz ≠ 0 then .error "Invalid fini array size"
    else
      match readAt file sh.sh_offset sh.sh_size with
      | none => .error "Failed to read fini array"
      | some bs => .ok (decodeList esz fromLEBytes (sh.sh_size / esz) bs).reverse

/-- The `.fini` part of `read_term_functions`. -/
def read_fini_section_piece (shs : List elf_section_header) : List Nat :=
  match shs.find? (fun hdr => hdr.sh_name_str = cstr ".fini") with
  | none => []
  | some sh => [sh.sh_addr]

/-- Model of `elf_file::read_term_functions`: reversed fini array, then the
`.fini` section's address. -/
def read_term_functions (file : List Nat) (is64 : Bool)
    (shs : List elf_section_header) : Except String (List Nat) := do
  let arr ← read_fini_array_piece file is64 shs
  pure (arr ++ read_fini_section_piece shs)

/-- The reader's state: the members of `elf::elf_file` that decoding
populates.  `so_name` and the entries of `needed_libraries` hold string
table offsets — the source stores `char` pointers fabricated as
`string table base + offset`, so with the buffer modelled at base 0 the
pointer value is the offset. -/
structure elf_file where
  header : elf_header
  program_headers : List elf_program_header
  section_headers : List elf_section_header
  section_header_string_table : List Nat
  dynamic_entries : List elf_dynamic
  dynamic_segment_string_table : List Nat
  so_name : Nat
  needed_libraries : List Nat
  dynamic_symbols : List elf_symbol
  init_functions : List Nat
  fini_functions : List Nat
  base_address : Nat
  hash_buckets : List Nat
  hash_chains : List Nat
  gnu_hash_buckets : List Nat
  gnu_hash_values : List Nat
  gnu_hash_bloom_shift : Nat
  gnu_hash_omitted_symbols_count : Nat
  gnu_hash_bloom_words : List Nat
  plt_rel_entries : List elf_rel
  dyn_rel_entries : List elf_rel
  plt_rela_entries : List elf_rela
  dyn_rela_entries : List elf_rela
  last_error : String
deriving DecidableEq

/-- A freshly constructed reader before any decode step (the C++ member
initializers: zeroed header, empty vectors, null pointers, no error). -/
def emptyElfFile : elf_file :=
  { header :=
      ⟨⟨[0, 0, 0, 0], 0, 0, 0, 0, 0, [0, 0, 0, 0, 0, 0, 0]⟩,
        0, 0, 0, 0, 0, 0, 0, 0, 0, 0, 0, 0, 0⟩
    program_headers := []
    section_headers := []
    section_header_string_table := []
    dynamic_entries := []
    dynamic_segment_string_table := []
    so_name := 0
    needed_libraries := []
    dynamic_symbols := []
    init_functions := []
    fini_functions := []
    base_address := 0
    hash_buckets := []
    hash_chains := []
    gnu_hash_buckets := []
    gnu_hash_values := []
    gnu_hash_bloom_shift := 0
    gnu_hash_omitted_symbols_count := 0
    gnu_hash_bloom_words := []
    plt_rel_entries := []
    dyn_rel_entries := []
    plt_rela_entries := []
    dyn_rela_entries := []
    last_error := "" }

/-- Model of the `elf_file(path)` constructor body over an already opened
byte source: run header, program-header, section-header, init-function and
term-function decoding eagerly, stopping at the first failure and
recording its message in `last_error`. -/
def elf_file.construct (file : List Nat) : elf_file :=
  match read_elf_header file with
  | .error e => { emptyElfFile with last_error := e }
  | .ok hdr =>
    let st1 : elf_file := { emptyElfFile with header := hdr }
    match read_program_headers file hdr with
    | .error e => { st1 with last_error := e }
    | .ok (phs, base) =>
      let st2 : elf_file := { st1 with program_headers := phs, base_address := base }
      match read_section_headers file hdr with
      | .error e => { st2 with last_error := e }
      | .ok (shs, tbl) =>
        let st3 : elf_file :=
          { st2 with section_headers := shs, section_header_string_table := tbl }
        match read_init_functions file (hdr.e_ident.ei_class = 2) shs with
        | .error e => { st3 with last_error := e }
        | .ok inits =>
          let st4 : elf_file := { st3 with init_functions := inits }
          match read_term_functions file (hdr.e_ident.ei_class = 2) shs with
          | .error e => { st4 with last_error := e }
          | .ok finis => { st4 with fini_functions := finis }

/-- Accessor `elf_file::get_base_address`: the stored value, unchanged. -/
def get_base_address (st : elf_file) : Nat :=
  st.base_address

/-- The scalar results of `parse_dynamic_segment`'s single pass over the
dynamic entries. -/
structure DynInfo where
  strtab_off : Nat
  strsz : Nat
  symtab_off : Nat
  syment : Nat
  so_name_off : Nat
  needed_offs : List Nat
deriving DecidableEq

/-- Locate the `PT_DYNAMIC` (= 2) segment descriptor. -/
def find_dynamic_header (phs : List elf_program_header) : Option elf_program_header :=
  phs.find? (fun ph => ph.p_type = 2)

/-- Locate the `SHT_DYNSYM` (= 11) section descriptor. -/
def find_symbol_table_header (shs : List elf_section_header) : Option elf_section_header :=
  shs.find? (fun sh => sh.sh_type = 11)

/-- Read and decode the dynamic segment's entries.  `Except.error none`
models the source's bare `return false` (no message) for an unhandled
class; `Except.error (some msg)` a recorded failure. -/
def read_dynamic_entries (file : List Nat) (hdr : elf_header) (dh : elf_program_header) :
    Except (Option String) (List elf_dynamic) :=
  if hdr.e_ident.ei_class = 2 then
    if dh.p_filesz % 16 ≠ 0 then .error (some "Invalid dynamic segment size")
    else
      match readAt file dh.p_offset dh.p_filesz with
      | none => .error (some "Failed to read dynamic segment")
      | some bs => .ok (decodeList 16 decode_Elf64_Dyn (dh.p_filesz / 16) bs)
  else if hdr.e_ident.ei_class = 1 then
    if dh.p_filesz % 8 ≠ 0 then .error (some "Invalid dynamic segment size")
    else
      match readAt file dh.p_offset dh.p_filesz with
      | none => .error (some "Failed to read dynamic segment")
      | some bs => .ok (decodeList 8 decode_Elf32_Dyn (dh.p_filesz / 8) bs)
  else .error none

/-- The single pass over the dynamic entries: string/symbol table pointers
(converted to file offsets by subtracting the base address in `size_t`
arithmetic), their sizes, and the SONAME/NEEDED name offsets. -/
def scan_dynamic_entries (base : Nat) (entries : List elf_dynamic) : DynInfo :=
  entries.foldl
    (fun info e =>
      if e.d_tag = 5 then { info with strtab_off := sub64 e.d_un base }
      else if e.d_tag = 10 then { info with strsz := e.d_un }
      else if e.d_tag = 6 then { info with symtab_off := sub64 e.d_un base }
      else if e.d_tag = 11 then { info with syment := e.d_un }
      else if e.d_tag = 14 then { info with so_name_off := e.d_un }
      else if e.d_tag = 1 then { info with needed_offs := info.needed_offs ++ [e.d_un] }
      else info)
    ⟨0, 0, 0, 0, 0, []⟩

/-- Model of `elf_file::parse_hash_tables`: walk the section table; decode
the legacy `SHT_HASH` (= 5) table (bucket/chain counts validated nonzero)
and the `SHT_GNU_HASH` (= 0x6ffffff6) table (header, bloom words — 64-bit
native or widened from 32-bit — buckets, and the secondary hash values for
the non-omitted tail of the symbol table; no field of this header is
validated). -/
def parse_hash_tables_go (file : List Nat) (st : elf_file) :
    List elf_section_header → elf_file × Bool
  | [] => (st, true)
  | sh :: rest =>
    if sh.sh_type = 5 then
      match readAt file sh.sh_offset 8 with
      | none => ({ st with last_error := "Failed to read hash table header" }, false)
      | some hb =>
        let (nbucket, hb) := takeLE 4 hb
        let (nchain, _) := takeLE 4 hb
        if nbucket = 0 ∨ nchain = 0 then
          ({ st with last_error := "Invalid hash table header" }, false)
        else
          match readAt file (sh.sh_offset + 8) (4 * nbucket) with
          | none => ({ st with last_error := "Failed to read hash table buckets" }, false)
          | some bb =>
            match readAt file (sh.sh_offset + 8 + 4 * nbucket) (4 * nchain) with
            | none => ({ st with last_error := "Failed to read hash table chains" }, false)
            | some cb =>
              parse_hash_tables_go file
                { st with hash_buckets := decodeList 4 fromLEBytes nbucket bb,
                          hash_chains := decodeList 4 fromLEBytes nchain cb }
                rest
    else if sh.sh_type = 0x6ffffff6 then
      match readAt file sh.sh_offset 16 with
      | none => ({ st with last_error := "Failed to read gnu hash table header" }, false)
      | some hb =>
        let (nbuckets, hb) := takeLE 4 hb
        let (omitted, hb) := takeLE 4 hb
        let (bloomSize, hb) := takeLE 4 hb
        let (bloomShift, _) := takeLE 4 hb
        let st1 : elf_file :=
          { st with gnu_hash_bloom_shift := bloomShift,
                    gnu_hash_omitted_symbols_count := omitted }
        let bloomE : Except String (List Nat) :=
          if st.header.e_ident.ei_class = 2 then
            match readAt file (sh.sh_offset + 16) (8 * bloomSize) with
            | none => .error "Failed to read gnu hash table bloom words"
            | some wb => .ok (decodeList 8 fromLEBytes bloomSize wb)
          else if st.header.e_ident.ei_class = 1 then
            match readAt file (sh.sh_offset + 16) (4 * bloomSize) with
            | none => .error "Failed to read gnu hash table bloom words"
            | some wb => .ok (decodeList 4 fromLEBytes bloomSize wb)
          else .error "Invalid ELF class"
        match bloomE with
        | .error e => ({ st1 with last_error := e }, false)
        | .ok words =>
          let wsz := if st.header.e_ident.ei_class = 2 then 8 else 4
          let st2 : elf_file := { st1 with gnu_hash_bloom_words := words }
          match readAt file (sh.sh_offset + 16 + wsz * bloomSize) (4 * nbuckets) with
          | none => ({ st2 with last_error := "Failed to read gnu hash table buckets" }, false)
          | some bb =>
            let st3 : elf_file :=
              { st2 with gnu_hash_buckets := decodeList 4 fromLEBytes nbuckets bb }
            let hvCount := sub64 st.dynamic_symbols.length omitted
            match readAt file (sh.sh_offset + 16 + wsz * bloomSize + 4 * nbuckets)
                (4 * hvCount) with
            | none => ({ st3 with last_error := "Failed to read gnu hash table values" }, false)
            | some vb =>
              parse_hash_tables_go file
                { st3 with gnu_hash_values := decodeList 4 fromLEBytes hvCount vb }
                rest
    else parse_hash_tables_go file st rest

/-- Entry point of `parse_hash_tables` over the reader's section table. -/
def parse_hash_tables (file : List Nat) (st : elf_file) : elf_file × Bool :=
  parse_hash_tables_go file st st.section_headers

/-- Decode one relocation section and store it in the bucket its exact
name selects, or fail on any other name. -/
def parse_reloc_section (file : List Nat) (st : elf_file) (sh : elf_section_header) :
    elf_file × Bool :=
  if sh.sh_type = 9 then
    if st.header.e_ident.ei_class = 2 then
      if sh.sh_entsize ≠ 16 then ({ st with last_error := "Invalid relocation entry size" }, false)
      else
        let count := sh.sh_size / 16
        if sh.sh_name_str = cstr ".rel.plt" then
          match readAt file sh.sh_offset sh.sh_size with
          | none => ({ st with last_error := "Failed to read relocation entries" }, false)
          | some bs => ({ st with plt_rel_entries := decodeList 16 decode_Elf64_Rel count bs }, true)
        else if sh.sh_name_str = cstr ".rel.dyn" then
          match readAt file sh.sh_offset sh.sh_size with
          | none => ({ st with last_error := "Failed to read relocation entries" }, false)
          | some bs => ({ st with dyn_rel_entries := decodeList 16 decode_Elf64_Rel count bs }, true)
        else ({ st with last_error := "Invalid relocation section name" }, false)
    else
      if sh.sh_entsize ≠ 8 then ({ st with last_error := "Invalid relocation entry size" }, false)
      else
        let count := sh.sh_size / 8
        match readAt file sh.sh_offset sh.sh_size with
        | none => ({ st with last_error := "Failed to read relocation entries" }, false)
        | some bs =>
          if sh.sh_name_str = cstr ".rel.plt" then
            ({ st with plt_rel_entries := decodeList 8 decode_Elf32_Rel count bs }, true)
          else if sh.sh_name_str = cstr ".rel.dyn" then
            ({ st with dyn_rel_entries := decodeList 8 decode_Elf32_Rel count bs }, true)
          else ({ st with last_error := "Invalid relocation section name" }, false)
  else if sh.sh_type = 4 then
    if st.header.e_ident.ei_class = 2 then
      if sh.sh_entsize ≠ 24 then ({ st with last_error := "Invalid relocation entry size" }, false)
      else
        let count := sh.sh_size / 24
        if sh.sh_name_str = cstr ".rela.plt" then
          match readAt file sh.sh_offset sh.sh_size with
          | none => ({ st with last_error := "Failed to read relocation entries" }, false)
          | some bs => ({ st with plt_rela_entries := decodeList 24 decode_Elf64_Rela count bs }, true)
        else if sh.sh_name_str = cstr ".rela.dyn" then
          match readAt file sh.sh_offset sh.sh_size with
          | none => ({ st with last_error := "Failed to read relocation entries" }, false)
          | some bs => ({ st with dyn_rela_entries := decodeList 24 decode_Elf64_Rela count bs }, true)
        else ({ st with last_error := "Invalid relocation section name" }, false)
    else
      if sh.sh_entsize ≠ 12 then ({ st with last_error := "Invalid relocation entry size" }, false)
      else
        let count := sh.sh_size / 12
        match readAt file sh.sh_offset sh.sh_size with
        | none => ({ st with last_error := "Failed to read relocation entries" }, false)
        | some bs =>
          if sh.sh_name_str = cstr ".rela.plt" then
            ({ st with plt_rela_entries := decodeList 12 decode_Elf32_Rela count bs }, true)
          else if sh.sh_name_str = cstr ".rela.dyn" then
            ({ st with dyn_rela_entries := decodeList 12 decode_Elf32_Rela count bs }, true)
          else ({ st with last_error := "Invalid relocation section name" }, false)
  else (st, true)

/-- Model of `elf_file::parse_relocations`: walk the section table and
decode every `SHT_REL` (= 9) / `SHT_RELA` (= 4) section, classifying by
exact section name into PLT and non-PLT buckets. -/
def parse_relocations_go (file : List Nat) (st : elf_file) :
    List elf_section_header → elf_file × Bool
  | [] => (st, true)
  | sh :: rest =>
    match parse_reloc_section file st sh with
    | (st1, false) => (st1, false)
    | (st1, true) => parse_relocations_go file st1 rest

/-- Entry point of `parse_relocations` over the reader's section table. -/
def parse_relocations (file : List Nat) (st : elf_file) : elf_file × Bool :=
  parse_relocations_go file st st.section_headers

/-- The tail of `parse_dynamic_segment` after the symbol-table offset
cross-check passed: validate the entry size against the width, read and
decode the symbol table, resolve names through the dynamic string table,
then run `parse_hash_tables` and `parse_relocations`. -/
def parse_dyn_after_offset_check (file : List Nat) (st : elf_file) (info : DynInfo)
    (symsh : elf_section_header) : elf_file × Bool :=
  let count := symsh.sh_size / info.syment
  let symsE : Except String (List elf_symbol) :=
    if st.header.e_ident.ei_class = 2 then
      if info.syment ≠ 24 then .error "Invalid symbol table entry size"
      else
        match readAt file info.symtab_off (count * 24) with
        | none => .error "Failed to read dynamic symbol"
        | some bs => .ok (decodeList 24 decode_Elf64_Sym count bs)
    else
      if info.syment ≠ 16 then .error "Invalid symbol table entry size"
      else
        match readAt file info.symtab_off (count * 16) with
        | none => .error "Failed to read dynamic symbols"
        | some bs => .ok (decodeList 16 decode_Elf32_Sym count bs)
  match symsE with
  | .error e => ({ st with last_error := e }, false)
  | .ok syms =>
    let st1 : elf_file :=
      { st with dynamic_symbols :=
          syms.map (fun s =>
            { s with st_name_str := cString st.dynamic_segment_string_table s.st_name }) }
    match parse_hash_tables file st1 with
    | (st2, false) => (st2, false)
    | (st2, true) =>
      match parse_relocations file st2 with
      | (st3, false) => (st3, false)
      | (st3, true) => (st3, true)

/-- Model of `elf_file::parse_dynamic_segment`: locate the dynamic
segment (its absence is a silent `false`), decode its entries, extract the
table locations in one pass, read the dynamic string table, cross-check
the symbol-table offset against the `SHT_DYNSYM` section, then decode
symbols, hash tables and relocations. -/
def parse_dynamic_segment (file : List Nat) (st : elf_file) : elf_file × Bool :=
  match find_dynamic_header st.program_headers with
  | none => (st, false)
  | some dh =>
    match read_dynamic_entries file st.header dh with
    | .error none => (st, false)
    | .error (some msg) => ({ st with last_error := msg }, false)
    | .ok entries =>
      let st1 : elf_file := { st with dynamic_entries := entries }
      let info := scan_dynamic_entries st.base_address entries
      if info.strtab_off = 0 ∨ info.strsz = 0 then
        ({ st1 with last_error := "Failed to find dynamic string table" }, false)
      else if info.symtab_off = 0 ∨ info.syment = 0 then
        ({ st1 with last_error := "Failed to find symbol table" }, false)
      else
        match readAt file info.strtab_off info.strsz with
        | none => ({ st1 with last_error := "Failed to read dynamic string table" }, false)
        | some strtab =>
          let st2 : elf_file :=
            { st1 with dynamic_segment_string_table := strtab,
                       so_name := info.so_name_off,
                       needed_libraries := info.needed_offs }
          match find_symbol_table_header st.section_headers with
          | none => ({ st2 with last_error := "Failed to find dynamic symbol table" }, false)
          | some symsh =>
            if info.symtab_off ≠ symsh.sh_offset then
              ({ st2 with last_error := "Symbol table offsets don't match" }, false)
            else parse_dyn_after_offset_check file st2 info symsh

/-- The fuelled chain walk of `lookup_gnu_symbol`: the symbol iterator `i`
and the hash-value iterator `j` advance in lockstep; the loop condition is
the source's pair of `!= cend()` pointer comparisons; a dereference outside
the vector (undefined behaviour in C++) is modelled as an error outcome.
`none` means the fuel ran out before the loop exited. -/
def gnuChainWalkF (syms : List elf_symbol) (vals : List Nat) (h1m : Nat)
    (name : List Nat) : Nat → Nat → Nat → Option (Except String (Option Nat))
  | 0, _, _ => none
  | fuel + 1, i, j =>
    if i = syms.length ∨ j = vals.length then some (.ok none)
    else
      match vals.get? j with
      | none => some (.error "out of bounds read")
      | some v =>
        if h1m ≠ (v &&& 4294967294) then gnuChainWalkF syms vals h1m name fuel (i + 1) (j + 1)
        else
          match syms.get? i with
          | none => some (.error "out of bounds read")
          | some sym =>
            if sym.st_name_str = name then some (.ok (some i))
            else if v &&& 1 = 1 then some (.ok none)
            else gnuChainWalkF syms vals h1m name fuel (i + 1) (j + 1)

/-- Model of `elf_file::lookup_gnu_symbol`.  `Except.error` models a thrown
`std::out_of_range` from `std::vector::at` (or an out-of-bounds iterator
dereference inside the walk).  The bloom word index masks with
`bloom word count - 1`; for an empty bloom vector any index is out of range
(as in the source, where the `size_t` mask underflows), so the `.at` call
throws.  The walk's fuel is one more than both vectors' combined length,
which the termination theorem shows is never exhausted. -/
def lookup_gnu_symbol (st : elf_file) (name : List Nat) : Except String (Option Nat) :=
  if st.gnu_hash_buckets = [] then .ok none
  else
    let hash1 := gnu_hash name
    let hash2 := hash1 >>> st.gnu_hash_bloom_shift
    let bitmask := (1 <<< (hash1 % 64)) ||| (1 <<< (hash2 % 64))
    match st.gnu_hash_bloom_words.get? ((hash1 / 64) &&& (st.gnu_hash_bloom_words.length - 1)) with
    | none => .error "vector::at out of range"
    | some w =>
      if w &&& bitmask ≠ bitmask then .ok none
      else
        match st.gnu_hash_buckets.get? (hash1 % st.gnu_hash_buckets.length) with
        | none => .error "vector::at out of range"
        | some startIdx =>
          if startIdx = 0 then .ok none
          else
            let j0 := sub64 startIdx st.gnu_hash_omitted_symbols_count
            match gnuChainWalkF st.dynamic_symbols st.gnu_hash_values
                (hash1 &&& 4294967294) name
                (st.dynamic_symbols.length + st.gnu_hash_values.length + 2) startIdx j0 with
            | some r => r
            | none => .error "walk out of fuel"

/-- The fuelled chain walk of `lookup_elf_symbol`: follow `chains` from
`index` until the undefined sentinel 0 or a name match.  The source's loop
has no other bound, so a cyclic chain never exits — modelled by every fuel
running out (`none`).  `chains.at` throwing `std::out_of_range` and an
out-of-bounds symbol access are error outcomes. -/
def elfChainWalkF (syms : List elf_symbol) (chains : List Nat) (name : List Nat) :
    Nat → Nat → Option (Except String (Option Nat))
  | 0, _ => none
  | fuel + 1, index =>
    if index = 0 then some (.ok none)
    else
      match syms.get? index with
      | none => some (.error "out of bounds read")
      | some sym =>
        if sym.st_name_str = name then some (.ok (some index))
        else
          match chains.get? index with
          | none => some (.error "vector::at out of range")
          | some nxt => elfChainWalkF syms chains name fuel nxt

/-- Model of `elf_file::lookup_elf_symbol`, given a loop budget (the C++
loop is unbounded; `.error "lookup does not terminate"` marks a budget
exhausted on a cyclic chain). -/
def lookup_elf_symbol (st : elf_file) (name : List Nat) (fuel : Nat) :
    Except String (Option Nat) :=
  if st.hash_buckets = [] then .ok none
  else
    let hash := elf_hash name % 4294967296
    let index := st.hash_buckets.getD (hash % st.hash_buckets.length) 0
    match elfChainWalkF st.dynamic_symbols st.hash_chains name fuel index with
    | some r => r
    | none => .error "lookup does not terminate"

/-- Model of `elf_file::get_symbol`: the GNU index first, the legacy index
only if the GNU lookup found nothing (an exception propagates). -/
def get_symbol (st : elf_file) (name : List Nat) (fuel : Nat) :
    Except String (Option Nat) :=
  match lookup_gnu_symbol st name with
  | .error e => .error e
  | .ok (some i) => .ok (some i)
  | .ok none => lookup_elf_symbol st name fuel

/-- Section table of a 64-bit file with a one-entry pre-init array, an
`.init` section at address `b`, a two-entry init array, a two-entry fini
array and a `.fini` section at address `z` (array bytes at offsets
0, 8 and 24 of the file). -/
def c3secs64 (b z : Nat) : List elf_section_header :=
  [⟨0, 0, 0, 0, 0, 8, 0, 0, 0, 0, cstr ".preinit_array"⟩,
    ⟨0, 0, 0, b, 0, 0, 0, 0, 0, 0, cstr ".init"⟩,
    ⟨0, 0, 0, 0, 8, 16, 0, 0, 0, 0, cstr ".init_array"⟩,
    ⟨0, 0, 0, 0, 24, 16, 0, 0, 0, 0, cstr ".fini_array"⟩,
    ⟨0, 0, 0, z, 0, 0, 0, 0, 0, 0, cstr ".fini"⟩]

/-- File bytes backing `c3secs64`: pre-init entry `a`, init-array entries
`c, d`, fini-array entries `x, y`, as 8-byte words. -/
def c3file64 (a c d x y : Nat) : List Nat :=
  toLEBytes 8 a ++ toLEBytes 8 c ++ toLEBytes 8 d ++ toLEBytes 8 x ++ toLEBytes 8 y

/-- A zeroed header whose identification class byte says 64-bit. -/
def hdr64class : elf_header :=
  { emptyElfFile.header with
      e_ident := { emptyElfFile.header.e_ident with ei_class := 2 } }

/-- State refuting C2: the chain starting at bucket index 1 opens with a
secondary hash value of 1 — low bit set, masked value 0 — yet the symbol
the query matches sits one entry further on. -/
def c2state : elf_file :=
  { emptyElfFile with
      dynamic_symbols := [⟨0, 0, 0, 0, 0, 0, []⟩, ⟨0, 0, 0, 0, 0, 0, [98]⟩,
        ⟨0, 0, 0, 0, 0, 0, [97]⟩]
      gnu_hash_values := [1, 177670]
      gnu_hash_buckets := [1]
      gnu_hash_bloom_words := [18446744073709551615]
      gnu_hash_bloom_shift := 0
      gnu_hash_omitted_symbols_count := 1 }

/-- A GNU hash section whose on-disk header declares zero bloom words
(`parse_hash_tables` accepts it: the GNU header is never validated). -/
def c5gnusec : elf_section_header :=
  ⟨0, 0x6ffffff6, 0, 0, 0, 24, 0, 0, 0, 0, []⟩

/-- Reader state before hash parsing for the C5 counterexample. -/
def c5state0 : elf_file :=
  { emptyElfFile with
      header := hdr64class
      dynamic_symbols := [⟨0, 0, 0, 0, 0, 0, []⟩]
      section_headers := [c5gnusec] }

/-- Bytes of the degenerate GNU hash section: one bucket (value 5), zero
omitted symbols, zero bloom words, shift 0, one secondary hash value. -/
def c5file : List Nat :=
  toLEBytes 4 1 ++ toLEBytes 4 0 ++ toLEBytes 4 0 ++ toLEBytes 4 0 ++
    toLEBytes 4 5 ++ toLEBytes 4 7

/-- The reader state after parsing the degenerate GNU hash table: buckets
nonempty, bloom-word array empty. -/
def c5state : elf_file :=
  (parse_hash_tables c5file c5state0).fst

/-- State for the C9 witness: the single bloom word is zero, so every
probe fails, whatever the buckets, hash values and symbols hold. -/
def c9state : elf_file :=
  { emptyElfFile with
      gnu_hash_buckets := [1]
      gnu_hash_bloom_words := [0]
      dynamic_symbols := [⟨0, 0, 0, 0, 0, 0, []⟩, ⟨0, 0, 0, 0, 0, 0, [97]⟩]
      gnu_hash_values := [177671] }

/-- A complete 64-bit file for the C8 counterexample: header, three
sections (null, `.init` at address 0x1234, `.shstrtab`), no program
headers, no dynamic segment. -/
def c8file : List Nat :=
  [127, 69, 76, 70, 2, 1, 1, 0, 0, 0, 0, 0, 0, 0, 0, 0] ++ toLEBytes 2 3 ++
    toLEBytes 2 62 ++ toLEBytes 4 1 ++ toLEBytes 8 0 ++ toLEBytes 8 64 ++
    toLEBytes 8 64 ++ toLEBytes 4 0 ++ toLEBytes 2 64 ++ toLEBytes 2 56 ++
    toLEBytes 2 0 ++ toLEBytes 2 64 ++ toLEBytes 2 3 ++ toLEBytes 2 2 ++
  List.replicate 64 0 ++
  (toLEBytes 4 1 ++ toLEBytes 4 1 ++ toLEBytes 8 0 ++ toLEBytes 8 4660 ++
    toLEBytes 8 0 ++ toLEBytes 8 0 ++ toLEBytes 4 0 ++ toLEBytes 4 0 ++
    toLEBytes 8 0 ++ toLEBytes 8 0) ++
  (toLEBytes 4 7 ++ toLEBytes 4 3 ++ toLEBytes 8 0 ++ toLEBytes 8 0 ++
    toLEBytes 8 256 ++ toLEBytes 8 17 ++ toLEBytes 4 0 ++ toLEBytes 4 0 ++
    toLEBytes 8 0 ++ toLEBytes 8 0) ++
  ([0] ++ cstr ".init" ++ [0] ++ cstr ".shstrtab" ++ [0])

/-- The dynamic segment descriptor of the C7 witness. -/
def w7dh : elf_program_header := ⟨2, 0, 0, 0, 0, 80, 80, 0⟩

/-- The `SHT_DYNSYM` section of the C7 witness: it declares file offset
999 while the dynamic segment's `DT_SYMTAB` resolves to 200. -/
def w7symsh : elf_section_header := ⟨0, 11, 0, 0, 999, 0, 0, 0, 0, 0, []⟩

/-- Reader state for the C7 witness (constructed as after eager decoding:
64-bit header, one dynamic segment, one dynamic-symbol section, base 0). -/
def w7st : elf_file :=
  { emptyElfFile with
      header := hdr64class
      program_headers := [w7dh]
      section_headers := [w7symsh]
      base_address := 0 }

/-- File bytes for the C7 witness: five 64-bit dynamic entries
(`DT_STRTAB` 96, `DT_STRSZ` 8, `DT_SYMTAB` 200, `DT_SYMENT` 24,
`DT_NULL`) followed by padding that contains the string table at 96. -/
def w7file : List Nat :=
  toLEBytes 8 5 ++ toLEBytes 8 96 ++ toLEBytes 8 10 ++ toLEBytes 8 8 ++
    toLEBytes 8 6 ++ toLEBytes 8 200 ++ toLEBytes 8 11 ++ toLEBytes 8 24 ++
    toLEBytes 8 0 ++ toLEBytes 8 0 ++ List.replicate 24 0

/-- The decoded dynamic entries of `w7file`. -/
def w7entries : List elf_dynamic :=
  [⟨5, 96⟩, ⟨10, 8⟩, ⟨6, 200⟩, ⟨11, 24⟩, ⟨0, 0⟩]

/-- The 32-bit analogue of `c3secs64` (4-byte entries, offsets 0, 4, 12). -/
def c3secs32 (b z : Nat) : List elf_section_header :=
  [⟨0, 0, 0, 0, 0, 4, 0, 0, 0, 0, cstr ".preinit_array"⟩,
    ⟨0, 0, 0, b, 0, 0, 0, 0, 0, 0, cstr ".init"⟩,
    ⟨0, 0, 0, 0, 4, 8, 0, 0, 0, 0, cstr ".init_array"⟩,
    ⟨0, 0, 0, 0, 12, 8, 0, 0, 0, 0, cstr ".fini_array"⟩,
    ⟨0, 0, 0, z, 0, 0, 0, 0, 0, 0, cstr ".fini"⟩]

/-- File bytes backing `c3secs32`, as 4-byte words. -/
def c3file32 (a c d x y : Nat) : List Nat :=
  toLEBytes 4 a ++ toLEBytes 4 c ++ toLEBytes 4 d ++ toLEBytes 4 x ++ toLEBytes 4 y

end ElfModel

namespace ElfModel

theorem toLEBytes_length (n v : Nat) : (toLEBytes n v).length = n := by
  induction n generalizing v with
  | zero => rfl
  | succ n ih => simp [toLEBytes, ih]

theorem fromLE_toLE (n v : Nat) (h : v < 256 ^ n) :
    fromLEBytes (toLEBytes n v) = v := by
  induction n generalizing v with
  | zero =>
    interval_cases v
    rfl
  | succ n ih =>
    have hlt : v / 256 < 256 ^ n := by
      apply Nat.div_lt_of_lt_mul
      rw [pow_succ] at h
      omega
    simp [toLEBytes, fromLEBytes, ih _ hlt, Nat.mod_add_div]

theorem take_append_len (l₁ l₂ : List Nat) (n : Nat) (h : l₁.length = n) :
    (l₁ ++ l₂).take n = l₁ := by
  subst h
  exact List.take_left l₁ l₂

theorem drop_append_len (l₁ l₂ : List Nat) (n : Nat) (h : l₁.length = n) :
    (l₁ ++ l₂).drop n = l₂ := by
  subst h
  exact List.drop_left l₁ l₂

theorem takeLE_toLE (n v : Nat) (rest : List Nat) (h : v < 256 ^ n) :
    takeLE n (toLEBytes n v ++ rest) = (v, rest) := by
  unfold takeLE
  rw [take_append_len _ _ _ (toLEBytes_length n v),
    drop_append_len _ _ _ (toLEBytes_length n v), fromLE_toLE n v h]

theorem takeLE1_toLE (v : Nat) (rest : List Nat) (h : v < 256) :
    takeLE 1 (toLEBytes 1 v ++ rest) = (v, rest) :=
  takeLE_toLE 1 v rest (by norm_num; omega)

theorem takeLE2_toLE (v : Nat) (rest : List Nat) (h : v < 65536) :
    takeLE 2 (toLEBytes 2 v ++ rest) = (v, rest) :=
  takeLE_toLE 2 v rest (by norm_num; omega)

theorem takeLE4_toLE (v : Nat) (rest : List Nat) (h : v < 4294967296) :
    takeLE 4 (toLEBytes 4 v ++ rest) = (v, rest) :=
  takeLE_toLE 4 v rest (by norm_num; omega)

theorem takeLE8_toLE (v : Nat) (rest : List Nat) (h : v < 18446744073709551616) :
    takeLE 8 (toLEBytes 8 v ++ rest) = (v, rest) :=
  takeLE_toLE 8 v rest (by norm_num; omega)

end ElfModel

namespace ElfModel

theorem readAt_prefix (mid post : List Nat) (len : Nat) (hlen : mid.length = len) :
    readAt (mid ++ post) 0 len = some mid := by
  unfold readAt
  rw [if_pos (by simp [← hlen])]
  simp [take_append_len _ _ _ hlen]

theorem readAt_mid (pre mid post : List Nat) (off len : Nat) (hoff : pre.length = off)
    (hlen : mid.length = len) : readAt (pre ++ (mid ++ post)) off len = some mid := by
  unfold readAt
  rw [if_pos (by simp only [List.length_append, ← hoff, ← hlen]; omega)]
  rw [drop_append_len pre (mid ++ post) off hoff]
  rw [take_append_len mid post len hlen]

theorem decodeList_chunk (esz : Nat) (f : List Nat → α) (n : Nat) (mid post : List Nat)
    (hmid : mid.length = esz) :
    decodeList esz f (n + 1) (mid ++ post) = f mid :: decodeList esz f n post := by
  simp [decodeList, take_append_len _ _ _ hmid, drop_append_len _ _ _ hmid]

theorem decodeList_last (esz : Nat) (f : List Nat → α) (mid : List Nat)
    (hmid : mid.length = esz) : decodeList esz f 1 mid = [f mid] := by
  have h := decodeList_chunk esz f 0 mid [] hmid
  simpa using h

theorem find?_name_skip (s : elf_section_header) (l : List elf_section_header)
    (nm : List Nat) (h : s.sh_name_str ≠ nm) :
    List.find? (fun hdr => hdr.sh_name_str = nm) (s :: l) =
      List.find? (fun hdr => hdr.sh_name_str = nm) l :=
  List.find?_cons_of_neg _ (by simpa using h)

theorem find?_name_hit (s : elf_section_header) (l : List elf_section_header)
    (nm : List Nat) (h : s.sh_name_str = nm) :
    List.find? (fun hdr => hdr.sh_name_str = nm) (s :: l) = some s :=
  List.find?_cons_of_pos _ (by simpa using h)

theorem ne_preinit_init : cstr ".preinit_array" ≠ cstr ".init" := by decide

theorem ne_preinit_initarr : cstr ".preinit_array" ≠ cstr ".init_array" := by decide

theorem ne_init_initarr : cstr ".init" ≠ cstr ".init_array" := by decide

theorem ne_preinit_finiarr : cstr ".preinit_array" ≠ cstr ".fini_array" := by decide

theorem ne_init_finiarr : cstr ".init" ≠ cstr ".fini_array" := by decide

theorem ne_initarr_finiarr : cstr ".init_array" ≠ cstr ".fini_array" := by decide

theorem ne_preinit_fini : cstr ".preinit_array" ≠ cstr ".fini" := by decide

theorem ne_init_fini : cstr ".init" ≠ cstr ".fini" := by decide

theorem ne_initarr_fini : cstr ".init_array" ≠ cstr ".fini" := by decide

theorem ne_finiarr_fini : cstr ".fini_array" ≠ cstr ".fini" := by decide

theorem c3_preinit_64 (a b c d x y z : Nat) (ha : a < 18446744073709551616) :
    read_preinit_piece (c3file64 a c d x y) true (c3secs64 b z) = .ok [a] := by
  have hfind : (c3secs64 b z).find? (fun hdr => hdr.sh_name_str = cstr ".preinit_array") =
      some ⟨0, 0, 0, 0, 0, 8, 0, 0, 0, 0, cstr ".preinit_array"⟩ := by
    rw [c3secs64, find?_name_hit _ _ (cstr ".preinit_array") rfl]
  have hread : readAt (c3file64 a c d x y) 0 8 = some (toLEBytes 8 a) := by
    rw [c3file64, List.append_assoc, List.append_assoc, List.append_assoc]
    exact readAt_prefix _ _ _ (toLEBytes_length 8 a)
  rw [read_preinit_piece, hfind]
  simp only [hread]
  norm_num
  rw [decodeList_last 8 fromLEBytes _ (toLEBytes_length 8 a),
    fromLE_toLE 8 a (by norm_num; omega)]

theorem c3_initarr_64 (a b c d x y z : Nat) (hc : c < 18446744073709551616)
    (hd : d < 18446744073709551616) :
    read_init_array_piece (c3file64 a c d x y) true (c3secs64 b z) = .ok [c, d] := by
  have hfind : (c3secs64 b z).find? (fun hdr => hdr.sh_name_str = cstr ".init_array") =
      some ⟨0, 0, 0, 0, 8, 16, 0, 0, 0, 0, cstr ".init_array"⟩ := by
    rw [c3secs64, find?_name_skip _ _ _ ne_preinit_initarr,
      find?_name_skip _ _ _ ne_init_initarr, find?_name_hit _ _ (cstr ".init_array") rfl]
  have heq : c3file64 a c d x y =
      toLEBytes 8 a ++ ((toLEBytes 8 c ++ toLEBytes 8 d) ++ (toLEBytes 8 x ++ toLEBytes 8 y)) := by
    simp [c3file64, List.append_assoc]
  have hread : readAt (c3file64 a c d x y) 8 16 =
      some (toLEBytes 8 c ++ toLEBytes 8 d) := by
    rw [heq]
    exact readAt_mid _ _ _ _ _ (toLEBytes_length 8 a) (by simp [toLEBytes_length])
  rw [read_init_array_piece, hfind]
  simp only [hread]
  norm_num
  rw [decodeList_chunk 8 fromLEBytes 1 _ _ (toLEBytes_length 8 c),
    decodeList_last 8 fromLEBytes _ (toLEBytes_length 8 d),
    fromLE_toLE 8 c (by norm_num; omega), fromLE_toLE 8 d (by norm_num; omega)]

theorem c3_initsec_64 (b z : Nat) : read_init_section_piece (c3secs64 b z) = [b] := by
  rw [read_init_section_piece, c3secs64, find?_name_skip _ _ _ ne_preinit_init,
    find?_name_hit _ _ (cstr ".init") rfl]

theorem c3_finiarr_64 (a b c d x y z : Nat) (hx : x < 18446744073709551616)
    (hy : y < 18446744073709551616) :
    read_fini_array_piece (c3file64 a c d x y) true (c3secs64 b z) = .ok [y, x] := by
  have hfind : (c3secs64 b z).find? (fun hdr => hdr.sh_name_str = cstr ".fini_array") =
      some ⟨0, 0, 0, 0, 24, 16, 0, 0, 0, 0, cstr ".fini_array"⟩ := by
    rw [c3secs64, find?_name_skip _ _ _ ne_preinit_finiarr,
      find?_name_skip _ _ _ ne_init_finiarr, find?_name_skip _ _ _ ne_initarr_finiarr,
      find?_name_hit _ _ (cstr ".fini_array") rfl]
  have heq : c3file64 a c d x y =
      ((toLEBytes 8 a ++ toLEBytes 8 c) ++ toLEBytes 8 d) ++
        ((toLEBytes 8 x ++ toLEBytes 8 y) ++ []) := by
    simp [c3file64, List.append_assoc]
  have hread : readAt (c3file64 a c d x y) 24 16 =
      some (toLEBytes 8 x ++ toLEBytes 8 y) := by
    rw [heq]
    exact readAt_mid _ _ _ _ _ (by simp [toLEBytes_length]) (by simp [toLEBytes_length])
  rw [read_fini_array_piece, hfind]
  simp only [hread]
  norm_num
  rw [decodeList_chunk 8 fromLEBytes 1 _ _ (toLEBytes_length 8 x),
    decodeList_last 8 fromLEBytes _ (toLEBytes_length 8 y),
    fromLE_toLE 8 x (by norm_num; omega), fromLE_toLE 8 y (by norm_num; omega)]

theorem c3_finisec_64 (b z : Nat) : read_fini_section_piece (c3secs64 b z) = [z] := by
  rw [read_fini_section_piece, c3secs64, find?_name_skip _ _ _ ne_preinit_fini,
    find?_name_skip _ _ _ ne_init_fini, find?_name_skip _ _ _ ne_initarr_fini,
    find?_name_skip _ _ _ ne_finiarr_fini, find?_name_hit _ _ (cstr ".fini") rfl]

theorem c3_preinit_32 (a b c d x y z : Nat) (ha : a < 4294967296) :
    read_preinit_piece (c3file32 a c d x y) false (c3secs32 b z) = .ok [a] := by
  have hfind : (c3secs32 b z).find? (fun hdr => hdr.sh_name_str = cstr ".preinit_array") =
      some ⟨0, 0, 0, 0, 0, 4, 0, 0, 0, 0, cstr ".preinit_array"⟩ := by
    rw [c3secs32, find?_name_hit _ _ (cstr ".preinit_array") rfl]
  have hread : readAt (c3file32 a c d x y) 0 4 = some (toLEBytes 4 a) := by
    rw [c3file32, List.append_assoc, List.append_assoc, List.append_assoc]
    exact readAt_prefix _ _ _ (toLEBytes_length 4 a)
  rw [read_preinit_piece, hfind]
  simp only [hread]
  norm_num
  rw [decodeList_last 4 fromLEBytes _ (toLEBytes_length 4 a),
    fromLE_toLE 4 a (by norm_num; omega)]

theorem c3_initarr_32 (a b c d x y z : Nat) (hc : c < 4294967296)
    (hd : d < 4294967296) :
    read_init_array_piece (c3file32 a c d x y) false (c3secs32 b z) = .ok [c, d] := by
  have hfind : (c3secs32 b z).find? (fun hdr => hdr.sh_name_str = cstr ".init_array") =
      some ⟨0, 0, 0, 0, 4, 8, 0, 0, 0, 0, cstr ".init_array"⟩ := by
    rw [c3secs32, find?_name_skip _ _ _ ne_preinit_initarr,
      find?_name_skip _ _ _ ne_init_initarr, find?_name_hit _ _ (cstr ".init_array") rfl]
  have heq : c3file32 a c d x y =
      toLEBytes 4 a ++ ((toLEBytes 4 c ++ toLEBytes 4 d) ++ (toLEBytes 4 x ++ toLEBytes 4 y)) := by
    simp [c3file32, List.append_assoc]
  have hread : readAt (c3file32 a c d x y) 4 8 =
      some (toLEBytes 4 c ++ toLEBytes 4 d) := by
    rw [heq]
    exact readAt_mid _ _ _ _ _ (toLEBytes_length 4 a) (by simp [toLEBytes_length])
  rw [read_init_array_piece, hfind]
  simp only [hread]
  norm_num
  rw [decodeList_chunk 4 fromLEBytes 1 _ _ (toLEBytes_length 4 c),
    decodeList_last 4 fromLEBytes _ (toLEBytes_length 4 d),
    fromLE_toLE 4 c (by norm_num; omega), fromLE_toLE 4 d (by norm_num; omega)]

theorem c3_initsec_32 (b z : Nat) : read_init_section_piece (c3secs32 b z) = [b] := by
  rw [read_init_section_piece, c3secs32, find?_name_skip _ _ _ ne_preinit_init,
    find?_name_hit _ _ (cstr ".init") rfl]

theorem c3_finiarr_32 (a b c d x y z : Nat) (hx : x < 4294967296)
    (hy : y < 4294967296) :
    read_fini_array_piece (c3file32 a c d x y) false (c3secs32 b z) = .ok [y, x] := by
  have hfind : (c3secs32 b z).find? (fun hdr => hdr.sh_name_str = cstr ".fini_array") =
      some ⟨0, 0, 0, 0, 12, 8, 0, 0, 0, 0, cstr ".fini_array"⟩ := by
    rw [c3secs32, find?_name_skip _ _ _ ne_preinit_finiarr,
      find?_name_skip _ _ _ ne_init_finiarr, find?_name_skip _ _ _ ne_initarr_finiarr,
      find?_name_hit _ _ (cstr ".fini_array") rfl]
  have heq : c3file32 a c d x y =
      ((toLEBytes 4 a ++ toLEBytes 4 c) ++ toLEBytes 4 d) ++
        ((toLEBytes 4 x ++ toLEBytes 4 y) ++ []) := by
    simp [c3file32, List.append_assoc]
  have hread : readAt (c3file32 a c d x y) 12 8 =
      some (toLEBytes 4 x ++ toLEBytes 4 y) := by
    rw [heq]
    exact readAt_mid _ _ _ _ _ (by simp [toLEBytes_length]) (by simp [toLEBytes_length])
  rw [read_fini_array_piece, hfind]
  simp only [hread]
  norm_num
  rw [decodeList_chunk 4 fromLEBytes 1 _ _ (toLEBytes_length 4 x),
    decodeList_last 4 fromLEBytes _ (toLEBytes_length 4 y),
    fromLE_toLE 4 x (by norm_num; omega), fromLE_toLE 4 y (by norm_num; omega)]

theorem c3_finisec_32 (b z : Nat) : read_fini_section_piece (c3secs32 b z) = [z] := by
  rw [read_fini_section_piece, c3secs32, find?_name_skip _ _ _ ne_preinit_fini,
    find?_name_skip _ _ _ ne_init_fini, find?_name_skip _ _ _ ne_initarr_fini,
    find?_name_skip _ _ _ ne_finiarr_fini, find?_name_hit _ _ (cstr ".fini") rfl]

/-- C3: for a file with pre-init array `[a]`, an `.init` section at address
`b`, init array `[c, d]`, fini array `[x, y]` and a `.fini` section at
address `z`, the produced initializer list is exactly `[a, b, c, d]` and
the produced terminator list is exactly `[y, x, z]` (fini array reversed,
fini function last) — for 64-bit and for 32-bit sources. -/
theorem elf_C3_lifecycle_order :
    (∀ a b c d x y z : Nat, a < 18446744073709551616 → c < 18446744073709551616 →
      d < 18446744073709551616 → x < 18446744073709551616 → y < 18446744073709551616 →
      read_init_functions (c3file64 a c d x y) true (c3secs64 b z) = .ok [a, b, c, d] ∧
      read_term_functions (c3file64 a c d x y) true (c3secs64 b z) = .ok [y, x, z]) ∧
    (∀ a b c d x y z : Nat, a < 4294967296 → c < 4294967296 → d < 4294967296 →
      x < 4294967296 → y < 4294967296 →
      read_init_functions (c3file32 a c d x y) false (c3secs32 b z) = .ok [a, b, c, d] ∧
      read_term_functions (c3file32 a c d x y) false (c3secs32 b z) = .ok [y, x, z]) := by
  constructor
  · intro a b c d x y z ha hc hd hx hy
    constructor
    · rw [read_init_functions]
      simp [c3_preinit_64 a b c d x y z ha, c3_initarr_64 a b c d x y z hc hd,
        c3_initsec_64 b z]
      rfl
    · rw [read_term_functions]
      simp [c3_finiarr_64 a b c d x y z hx hy, c3_finisec_64 b z]
  · intro a b c d x y z ha hc hd hx hy
    constructor
    · rw [read_init_functions]
      simp [c3_preinit_32 a b c d x y z ha, c3_initarr_32 a b c d x y z hc hd,
        c3_initsec_32 b z]
      rfl
    · rw [read_term_functions]
      simp [c3_finiarr_32 a b c d x y z hx hy, c3_finisec_32 b z]

/-- Witness for C3 at concrete addresses, both widths. -/
theorem elf_C3_lifecycle_order_witness :
    (read_init_functions (c3file64 10 30 40 50 60) true (c3secs64 20 70) =
        .ok [10, 20, 30, 40] ∧
      read_term_functions (c3file64 10 30 40 50 60) true (c3secs64 20 70) =
        .ok [60, 50, 70]) ∧
    (read_init_functions (c3file32 11 31 41 51 61) false (c3secs32 21 71) =
        .ok [11, 21, 31, 41] ∧
      read_term_functions (c3file32 11 31 41 51 61) false (c3secs32 21 71) =
        .ok [61, 51, 71]) :=
  ⟨elf_C3_lifecycle_order.1 10 20 30 40 50 60 70 (by norm_num) (by norm_num)
      (by norm_num) (by norm_num) (by norm_num),
    elf_C3_lifecycle_order.2 11 21 31 41 51 61 71 (by norm_num) (by norm_num)
      (by norm_num) (by norm_num) (by norm_num)⟩

end ElfModel

namespace ElfModel

theorem foldBase_no_load (l : List elf_program_header) (a : Nat)
    (h : ∀ ph ∈ l, ph.p_type ≠ 1) :
    l.foldl (fun acc ph => if ph.p_type = 1 then min acc ph.p_vaddr else acc) a = a := by
  induction l generalizing a with
  | nil => rfl
  | cons hd tl ih =>
    have hhd : hd.p_type ≠ 1 := h hd (List.mem_cons_self hd tl)
    simp only [List.foldl_cons, if_neg hhd]
    exact ih a (fun ph hph => h ph (List.mem_cons_of_mem hd hph))

theorem foldBase_le (l : List elf_program_header) (a : Nat) :
    l.foldl (fun acc ph => if ph.p_type = 1 then min acc ph.p_vaddr else acc) a ≤ a := by
  induction l generalizing a with
  | nil => exact le_rfl
  | cons hd tl ih =>
    simp only [List.foldl_cons]
    by_cases hhd : hd.p_type = 1
    · rw [if_pos hhd]
      exact le_trans (ih (min a hd.p_vaddr)) (min_le_left _ _)
    · rw [if_neg hhd]
      exact ih a

theorem foldBase_le_load (l : List elf_program_header) (a : Nat)
    (ph0 : elf_program_header) (hmem : ph0 ∈ l) (htype : ph0.p_type = 1) :
    l.foldl (fun acc ph => if ph.p_type = 1 then min acc ph.p_vaddr else acc) a ≤
      ph0.p_vaddr := by
  induction l generalizing a with
  | nil => cases hmem
  | cons hd tl ih =>
    simp only [List.foldl_cons]
    rcases List.mem_cons.mp hmem with heq | htl
    · subst heq
      rw [if_pos htype]
      exact le_trans (foldBase_le tl _) (min_le_right _ _)
    · by_cases hhd : hd.p_type = 1
      · rw [if_pos hhd]; exact ih _ htl
      · rw [if_neg hhd]; exact ih _ htl

theorem foldBase_mem (l : List elf_program_header) (a : Nat) :
    l.foldl (fun acc ph => if ph.p_type = 1 then min acc ph.p_vaddr else acc) a = a ∨
      ∃ ph ∈ l, ph.p_type = 1 ∧
        l.foldl (fun acc ph => if ph.p_type = 1 then min acc ph.p_vaddr else acc) a =
          ph.p_vaddr := by
  induction l generalizing a with
  | nil => exact Or.inl rfl
  | cons hd tl ih =>
    simp only [List.foldl_cons]
    by_cases hhd : hd.p_type = 1
    · rw [if_pos hhd]
      rcases ih (min a hd.p_vaddr) with heq | ⟨ph, hmem, htype, heq⟩
      · rcases Nat.le_total a hd.p_vaddr with hle | hle
        · left
          rw [heq, min_eq_left hle]
        · right
          exact ⟨hd, List.mem_cons_self hd tl, hhd, by rw [heq, min_eq_right hle]⟩
      · exact Or.inr ⟨ph, List.mem_cons_of_mem hd hmem, htype, heq⟩
    · rw [if_neg hhd]
      rcases ih a with heq | ⟨ph, hmem, htype, heq⟩
      · exact Or.inl heq
      · exact Or.inr ⟨ph, List.mem_cons_of_mem hd hmem, htype, heq⟩

/-- C6: after reading the program-header table the base address is the
minimum `p_vaddr` over `PT_LOAD` segments; with no loadable segment it is
the all-ones sentinel `0xFFFFFFFFFFFFFFFF`; `read_program_headers` returns
exactly this fold; and `get_base_address` returns the stored value
unchanged. -/
theorem elf_C6_base_address :
    (∀ phs : List elf_program_header, (∀ ph ∈ phs, ph.p_type ≠ 1) →
      computeBaseAddress phs = 18446744073709551615) ∧
    (∀ (phs : List elf_program_header) (ph0 : elf_program_header), ph0 ∈ phs →
      ph0.p_type = 1 → (∀ ph ∈ phs, ph.p_vaddr < 18446744073709551616) →
      (∃ ph ∈ phs, ph.p_type = 1 ∧ computeBaseAddress phs = ph.p_vaddr) ∧
        (∀ ph ∈ phs, ph.p_type = 1 → computeBaseAddress phs ≤ ph.p_vaddr)) ∧
    (∀ (file : List Nat) (hdr : elf_header) (phs : List elf_program_header) (base : Nat),
      read_program_headers file hdr = .ok (phs, base) → base = computeBaseAddress phs) ∧
    (∀ st : elf_file, get_base_address st = st.base_address) := by
  refine ⟨?_, ?_, ?_, ?_⟩
  · intro phs h
    exact foldBase_no_load phs _ h
  · intro phs ph0 hmem htype hbnd
    constructor
    · rcases foldBase_mem phs 18446744073709551615 with heq | ⟨ph, hm, ht, heq⟩
      · have hle := foldBase_le_load phs 18446744073709551615 ph0 hmem htype
        rw [heq] at hle
        have hlt := hbnd ph0 hmem
        have : ph0.p_vaddr = 18446744073709551615 := by omega
        exact ⟨ph0, hmem, htype, by rw [computeBaseAddress, heq, this]⟩
      · exact ⟨ph, hm, ht, heq⟩
    · intro ph hm ht
      exact foldBase_le_load phs _ ph hm ht
  · intro file hdr phs base h
    unfold read_program_headers at h
    split at h
    · split at h
      · cases h
      · split at h
        · cases h
        · simp only [Except.ok.injEq, Prod.mk.injEq] at h
          rw [← h.1, ← h.2]
    · split at h
      · cases h
      · split at h
        · cases h
        · simp only [Except.ok.injEq, Prod.mk.injEq] at h
          rw [← h.1, ← h.2]
  · intro st
    rfl

/-- Witness for C6: a table with no loadable segment keeps the sentinel; a
table with loadables attains and bounds the minimum; a concrete
`read_program_headers` run returns the fold; `get_base_address` reads the
field. -/
theorem elf_C6_base_address_witness :
    computeBaseAddress [⟨2, 0, 0, 5, 0, 0, 0, 0⟩] = 18446744073709551615 ∧
    ((∃ ph ∈ [(⟨1, 0, 0, 7, 0, 0, 0, 0⟩ : elf_program_header), ⟨1, 0, 0, 5, 0, 0, 0, 0⟩],
        ph.p_type = 1 ∧
          computeBaseAddress [⟨1, 0, 0, 7, 0, 0, 0, 0⟩, ⟨1, 0, 0, 5, 0, 0, 0, 0⟩] = ph.p_vaddr) ∧
      (∀ ph ∈ [(⟨1, 0, 0, 7, 0, 0, 0, 0⟩ : elf_program_header), ⟨1, 0, 0, 5, 0, 0, 0, 0⟩],
        ph.p_type = 1 →
          computeBaseAddress [⟨1, 0, 0, 7, 0, 0, 0, 0⟩, ⟨1, 0, 0, 5, 0, 0, 0, 0⟩] ≤ ph.p_vaddr)) ∧
    (18446744073709551615 : Nat) = computeBaseAddress [] ∧
    get_base_address emptyElfFile = emptyElfFile.base_address :=
  ⟨elf_C6_base_address.1 [⟨2, 0, 0, 5, 0, 0, 0, 0⟩] (by decide),
    elf_C6_base_address.2.1 [⟨1, 0, 0, 7, 0, 0, 0, 0⟩, ⟨1, 0, 0, 5, 0, 0, 0, 0⟩]
      ⟨1, 0, 0, 7, 0, 0, 0, 0⟩ (by simp) (by decide) (by decide),
    elf_C6_base_address.2.2.1 []
      { emptyElfFile.header with
          e_ident := { emptyElfFile.header.e_ident with ei_class := 2 }, e_phentsize := 56 }
      [] 18446744073709551615 rfl,
    elf_C6_base_address.2.2.2 emptyElfFile⟩

end ElfModel

namespace ElfModel

theorem gnuChainWalkF_isSome (syms : List elf_symbol) (vals : List Nat) (h1m : Nat)
    (name : List Nat) : ∀ (fuel i j : Nat), vals.length - j + 1 ≤ fuel →
    (gnuChainWalkF syms vals h1m name fuel i j).isSome = true := by
  intro fuel
  induction fuel with
  | zero => intro i j h; omega
  | succ f ih =>
    intro i j h
    rw [gnuChainWalkF]
    by_cases hexit : i = syms.length ∨ j = vals.length
    · rw [if_pos hexit]
      rfl
    · rw [if_neg hexit]
      cases hv : vals.get? j with
      | none =>
        simp only [hv]
        rfl
      | some v =>
        have hj : j < vals.length := by
          rcases List.get?_eq_some.mp hv with ⟨hlt, _⟩
          exact hlt
        simp only [hv]
        by_cases hcmp : h1m ≠ v &&& 4294967294
        · rw [if_pos hcmp]
          exact ih (i + 1) (j + 1) (by omega)
        · rw [if_neg hcmp]
          cases hs : syms.get? i with
          | none =>
            simp only [hs]
            rfl
          | some sym =>
            simp only [hs]
            by_cases hname : sym.st_name_str = name
            · rw [if_pos hname]
              rfl
            · rw [if_neg hname]
              by_cases hodd : v &&& 1 = 1
              · rw [if_pos hodd]
                rfl
              · rw [if_neg hodd]
                exact ih (i + 1) (j + 1) (by omega)

theorem gnuChainWalkF_no_error (syms : List elf_symbol) (vals : List Nat) (h1m : Nat)
    (name : List Nat) : ∀ (fuel i j : Nat), i ≤ syms.length → j ≤ vals.length →
    ∀ e, gnuChainWalkF syms vals h1m name fuel i j ≠ some (.error e) := by
  intro fuel
  induction fuel with
  | zero =>
    intro i j hi hj e h
    cases h
  | succ f ih =>
    intro i j hi hj e
    rw [gnuChainWalkF]
    by_cases hexit : i = syms.length ∨ j = vals.length
    · rw [if_pos hexit]
      simp
    · rw [if_neg hexit]
      have hi2 : i < syms.length := by omega
      have hj2 : j < vals.length := by omega
      cases hv : vals.get? j with
      | none =>
        rw [List.get?_eq_get hj2] at hv
        cases hv
      | some v =>
        simp only [hv]
        by_cases hcmp : h1m ≠ v &&& 4294967294
        · rw [if_pos hcmp]
          exact ih (i + 1) (j + 1) (by omega) (by omega) e
        · rw [if_neg hcmp]
          cases hs : syms.get? i with
          | none =>
            rw [List.get?_eq_get hi2] at hs
            cases hs
          | some sym =>
            simp only [hs]
            by_cases hname : sym.st_name_str = name
            · rw [if_pos hname]
              simp
            · rw [if_neg hname]
              by_cases hodd : v &&& 1 = 1
              · rw [if_pos hodd]
                simp
              · rw [if_neg hodd]
                exact ih (i + 1) (j + 1) (by omega) (by omega) e

end ElfModel

namespace ElfModel

/-- C9: a failed bloom probe — either probed bit unset in the selected
bloom word — makes the GNU lookup return "not found" at once, for every
possible bucket array, secondary hash-value array and symbol table (no
chain is walked, no name compared). -/
theorem elf_C9_bloom_fast_negative (st : elf_file) (name : List Nat)
    (hb : st.gnu_hash_buckets ≠ [])
    (hw : st.gnu_hash_bloom_words ≠ [])
    (hmiss : st.gnu_hash_bloom_words.getD
        ((gnu_hash name / 64) &&& (st.gnu_hash_bloom_words.length - 1)) 0 &&&
        ((1 <<< (gnu_hash name % 64)) |||
          (1 <<< ((gnu_hash name >>> st.gnu_hash_bloom_shift) % 64))) ≠
        ((1 <<< (gnu_hash name % 64)) |||
          (1 <<< ((gnu_hash name >>> st.gnu_hash_bloom_shift) % 64)))) :
    lookup_gnu_symbol st name = .ok none := by
  have hlen : 0 < st.gnu_hash_bloom_words.length := List.length_pos.mpr hw
  have hidx : (gnu_hash name / 64) &&& (st.gnu_hash_bloom_words.length - 1) <
      st.gnu_hash_bloom_words.length := by
    have h := Nat.and_le_right (n := gnu_hash name / 64)
      (m := st.gnu_hash_bloom_words.length - 1)
    omega
  have hget := List.get?_eq_get (l := st.gnu_hash_bloom_words) hidx
  have hgetD : st.gnu_hash_bloom_words.getD
      ((gnu_hash name / 64) &&& (st.gnu_hash_bloom_words.length - 1)) 0 =
      st.gnu_hash_bloom_words.get ⟨_, hidx⟩ := by
    rw [List.getD_eq_get?, hget]
    rfl
  rw [hgetD] at hmiss
  simp only [lookup_gnu_symbol, if_neg hb, hget]
  rw [if_pos hmiss]

/-- Witness for C9: with the only bloom word zero the lookup rejects the
name immediately, although a matching symbol sits in the table. -/
theorem elf_C9_bloom_fast_negative_witness :
    lookup_gnu_symbol c9state [97] = .ok none ∧
    c9state.dynamic_symbols.get? 1 = some ⟨0, 0, 0, 0, 0, 0, [97]⟩ :=
  ⟨elf_C9_bloom_fast_negative c9state [97] (by decide) (by decide) (by decide),
    by decide⟩

/-- C2, amended: during the GNU chain walk an entry ends the walk with
"not found" only when its masked secondary hash equals the masked query
hash, its name differs, and its low bit is 1; an entry whose masked
secondary hash differs from the query's is skipped — the walk moves to
the next entry — regardless of its low bit. -/
theorem elf_C2_stop_bit_amended :
    (∀ (syms : List elf_symbol) (vals : List Nat) (name : List Nat)
      (fuel i j : Nat) (v : Nat) (sym : elf_symbol),
      ¬(i = syms.length ∨ j = vals.length) → vals.get? j = some v →
      syms.get? i = some sym → sym.st_name_str ≠ name → v &&& 1 = 1 →
      gnuChainWalkF syms vals (v &&& 4294967294) name (fuel + 1) i j =
        some (.ok none)) ∧
    (∀ (syms : List elf_symbol) (vals : List Nat) (h1m : Nat) (name : List Nat)
      (fuel i j : Nat) (v : Nat),
      ¬(i = syms.length ∨ j = vals.length) → vals.get? j = some v →
      h1m ≠ (v &&& 4294967294) →
      gnuChainWalkF syms vals h1m name (fuel + 1) i j =
        gnuChainWalkF syms vals h1m name fuel (i + 1) (j + 1)) := by
  constructor
  · intro syms vals name fuel i j v sym hexit hv hs hname hodd
    rw [gnuChainWalkF, if_neg hexit]
    simp only [hv]
    rw [if_neg (fun hcon => hcon rfl)]
    simp only [hs]
    rw [if_neg hname, if_pos hodd]
  · intro syms vals h1m name fuel i j v hexit hv hne
    rw [gnuChainWalkF, if_neg hexit]
    simp only [hv]
    rw [if_pos hne]

/-- Counterexample to C2 as stated: in `c2state` the chain's first entry
(secondary value 1: low bit set, masked value 0 differing from the masked
query hash) does not end the walk — the lookup scans past it and returns
the symbol at index 2. -/
theorem elf_C2_stop_bit_counterexample :
    c2state.gnu_hash_values.get? 0 = some 1 ∧
    (1 : Nat) &&& 1 = 1 ∧
    gnu_hash [97] &&& 4294967294 ≠ (1 : Nat) &&& 4294967294 ∧
    lookup_gnu_symbol c2state [97] = .ok (some 2) := by decide

/-- Witness for the amended C2 at concrete inputs: a masked-hash-matching,
name-differing, odd entry returns "not found" at once; a masked-hash
mismatch steps over an odd entry. -/
theorem elf_C2_stop_bit_amended_witness :
    gnuChainWalkF [⟨0, 0, 0, 0, 0, 0, [98]⟩] [7] (7 &&& 4294967294) [97] 5 0 0 =
      some (.ok none) ∧
    gnuChainWalkF [⟨0, 0, 0, 0, 0, 0, [98]⟩] [1] 8 [97] 5 0 0 =
      gnuChainWalkF [⟨0, 0, 0, 0, 0, 0, [98]⟩] [1] 8 [97] 4 1 1 :=
  ⟨elf_C2_stop_bit_amended.1 [⟨0, 0, 0, 0, 0, 0, [98]⟩] [7] [97] 4 0 0 7
      ⟨0, 0, 0, 0, 0, 0, [98]⟩ (by decide) (by decide) (by decide) (by decide)
      (by decide),
    elf_C2_stop_bit_amended.2 [⟨0, 0, 0, 0, 0, 0, [98]⟩] [1] 8 [97] 4 0 0 1
      (by decide) (by decide) (by decide)⟩

/-- C10: the GNU chain walk terminates for every table contents — fuel one
past the distance to the hash-value vector's end is never exhausted, for
any start positions — while the legacy chained lookup's loop is bounded
only by reaching the undefined index: on a table whose chain maps index 1
to itself, the legacy walk exhausts every fuel. -/
theorem elf_C10_termination :
    (∀ (syms : List elf_symbol) (vals : List Nat) (h1m : Nat) (name : List Nat)
      (fuel i j : Nat), vals.length - j + 1 ≤ fuel →
      (gnuChainWalkF syms vals h1m name fuel i j).isSome = true) ∧
    (∀ fuel : Nat,
      elfChainWalkF [⟨0, 0, 0, 0, 0, 0, []⟩, ⟨0, 0, 0, 0, 0, 0, [98]⟩] [0, 1] [97]
        fuel 1 = none) := by
  constructor
  · exact fun syms vals h1m name fuel i j h =>
      gnuChainWalkF_isSome syms vals h1m name fuel i j h
  · intro fuel
    induction fuel with
    | zero => rfl
    | succ f ih =>
      rw [elfChainWalkF]
      rw [if_neg (by decide : ¬(1 = 0))]
      simp only [show ([(⟨0, 0, 0, 0, 0, 0, []⟩ : elf_symbol),
        ⟨0, 0, 0, 0, 0, 0, [98]⟩].get? 1) = some ⟨0, 0, 0, 0, 0, 0, [98]⟩ from rfl]
      rw [if_neg (by decide : ¬((⟨0, 0, 0, 0, 0, 0, [98]⟩ : elf_symbol).st_name_str = [97]))]
      simp only [show (([0, 1] : List Nat).get? 1) = some 1 from rfl]
      exact ih

/-- Witness for C10's fuel bound at a concrete walk. -/
theorem elf_C10_termination_witness :
    (gnuChainWalkF [⟨0, 0, 0, 0, 0, 0, [97]⟩] [4] 9 [97] 3 0 0).isSome = true :=
  elf_C10_termination.1 [⟨0, 0, 0, 0, 0, 0, [97]⟩] [4] 9 [97] 3 0 0 (by decide)

end ElfModel

namespace ElfModel

theorem decodeIdent_take16_class (p rest : List Nat) (hp : p.length = 4) :
    (decodeIdent ((p ++ rest).take 16)).ei_class = (rest[0]?).getD 0 := by
  show ((p ++ rest).take 16).getD 4 0 = (rest[0]?).getD 0
  rw [List.getD_eq_getElem?_getD, List.getElem?_take_of_lt (by norm_num : (4 : Nat) < 16),
    List.getElem?_append_right (by omega), hp]

theorem headerFields_decode64_drop (x y : List Nat) (h : x.drop 16 = y.drop 16) :
    headerFields (decode_Elf64_Ehdr x) = headerFields (decode_Elf64_Ehdr y) := by
  unfold decode_Elf64_Ehdr
  rw [h]
  rfl

theorem headerFields_decode32_drop (x y : List Nat) (h : x.drop 16 = y.drop 16) :
    headerFields (decode_Elf32_Ehdr x) = headerFields (decode_Elf32_Ehdr y) := by
  unfold decode_Elf32_Ehdr
  rw [h]
  rfl

theorem drop_append_irrel (p q bs : List Nat) (n : Nat) (hp : p.length = 4)
    (hq : q.length = 4) (hn : 4 ≤ n) : (p ++ bs).drop n = (q ++ bs).drop n := by
  rw [List.drop_append_eq_append_drop, List.drop_append_eq_append_drop,
    List.drop_eq_nil_of_le (show p.length ≤ n by omega),
    List.drop_eq_nil_of_le (show q.length ≤ n by omega), hp, hq]

theorem take_append_irrel (p q bs : List Nat) (n : Nat) (hp : p.length = 4)
    (hq : q.length = 4) (hn : 4 ≤ n) :
    ((p ++ bs).take n).drop 16 = ((q ++ bs).take n).drop 16 := by
  rw [List.take_append_eq_append_take, List.take_append_eq_append_take,
    List.take_of_length_le (show p.length ≤ n by omega),
    List.take_of_length_le (show q.length ≤ n by omega), hp, hq]
  exact drop_append_irrel p q _ 16 hp hq (by norm_num)

theorem rEH_map_magic_irrel (p q rest : List Nat) (hp : p.length = 4)
    (hq : q.length = 4) :
    Except.map headerFields (read_elf_header (p ++ rest)) =
      Except.map headerFields (read_elf_header (q ++ rest)) := by
  by_cases h16 : 16 ≤ 4 + rest.length
  · by_cases h2 : (rest[0]?).getD 0 = 2
    · by_cases h64 : 64 ≤ 4 + rest.length
      · simp [read_elf_header, readAt, hp, hq, h16, h2, h64,
          decodeIdent_take16_class p rest hp, decodeIdent_take16_class q rest hq,
          Except.map]
        exact headerFields_decode64_drop _ _ (take_append_irrel p q rest 64 hp hq (by norm_num))
      · simp [read_elf_header, readAt, hp, hq, h16, h2, h64,
          decodeIdent_take16_class p rest hp, decodeIdent_take16_class q rest hq,
          Except.map]
    · by_cases h1 : (rest[0]?).getD 0 = 1
      · by_cases h52 : 52 ≤ 4 + rest.length
        · simp [read_elf_header, readAt, hp, hq, h16, h2, h1, h52,
            decodeIdent_take16_class p rest hp, decodeIdent_take16_class q rest hq,
            Except.map]
          exact headerFields_decode32_drop _ _ (take_append_irrel p q rest 52 hp hq (by norm_num))
        · simp [read_elf_header, readAt, hp, hq, h16, h2, h1, h52,
            decodeIdent_take16_class p rest hp, decodeIdent_take16_class q rest hq,
            Except.map]
      · simp [read_elf_header, readAt, hp, hq, h16, h2, h1,
          decodeIdent_take16_class p rest hp, decodeIdent_take16_class q rest hq,
          Except.map]
  · simp [read_elf_header, readAt, hp, hq, h16, Except.map]

end ElfModel

namespace ElfModel

theorem exOk_map (f : α → β) (e : Except String α) : exOk (Except.map f e) = exOk e := by
  cases e <;> rfl

/-- C1, amended: identification validates only the class byte — a file
whose class byte is neither 1 nor 2 is rejected with "Invalid ELF class",
while the four magic bytes are never compared: replacing them changes
neither success nor any decoded non-identification header field. -/
theorem elf_C1_ident_class_only :
    (∀ file : List Nat, 16 ≤ file.length →
      (decodeIdent (file.take 16)).ei_class ≠ 1 →
      (decodeIdent (file.take 16)).ei_class ≠ 2 →
      read_elf_header file = .error "Invalid ELF class") ∧
    (∀ (m0 m1 m2 m3 n0 n1 n2 n3 : Nat) (rest : List Nat),
      Except.map headerFields (read_elf_header (m0 :: m1 :: m2 :: m3 :: rest)) =
        Except.map headerFields (read_elf_header (n0 :: n1 :: n2 :: n3 :: rest)) ∧
      exOk (read_elf_header (m0 :: m1 :: m2 :: m3 :: rest)) =
        exOk (read_elf_header (n0 :: n1 :: n2 :: n3 :: rest))) := by
  constructor
  · intro file h16 h1 h2
    unfold read_elf_header readAt
    rw [if_pos (by omega)]
    simp only [List.drop_zero]
    rw [if_neg h2, if_neg h1]
  · intro m0 m1 m2 m3 n0 n1 n2 n3 rest
    have hmap := rEH_map_magic_irrel [m0, m1, m2, m3] [n0, n1, n2, n3] rest rfl rfl
    have hcons1 : [m0, m1, m2, m3] ++ rest = m0 :: m1 :: m2 :: m3 :: rest := rfl
    have hcons2 : [n0, n1, n2, n3] ++ rest = n0 :: n1 :: n2 :: n3 :: rest := rfl
    rw [hcons1, hcons2] at hmap
    refine ⟨hmap, ?_⟩
    rw [← exOk_map headerFields, hmap, exOk_map]

/-- Counterexample to C1 as stated: a file whose first four bytes are all
zero — not the ELF magic — but whose class byte is 2 decodes past
identification successfully; no "not this format" failure occurs. -/
theorem elf_C1_ident_counterexample :
    exOk (read_elf_header
      ([0, 0, 0, 0, 2, 1, 1, 0, 0, 0, 0, 0, 0, 0, 0, 0] ++ List.replicate 48 0)) = true ∧
    ([0, 0, 0, 0, 2, 1, 1, 0, 0, 0, 0, 0, 0, 0, 0, 0] ++ List.replicate 48 0).take 4 ≠
      [127, 69, 76, 70] := by decide

/-- Witness for the amended C1 at a concrete bad-class file and a concrete
magic replacement. -/
theorem elf_C1_ident_class_only_witness :
    read_elf_header [127, 69, 76, 70, 9, 1, 1, 0, 0, 0, 0, 0, 0, 0, 0, 0] =
      .error "Invalid ELF class" ∧
    Except.map headerFields (read_elf_header (1 :: 2 :: 3 :: 4 :: List.replicate 60 0)) =
      Except.map headerFields (read_elf_header (9 :: 9 :: 9 :: 9 :: List.replicate 60 0)) :=
  ⟨elf_C1_ident_class_only.1 [127, 69, 76, 70, 9, 1, 1, 0, 0, 0, 0, 0, 0, 0, 0, 0]
      (by decide) (by decide) (by decide),
    (elf_C1_ident_class_only.2 1 2 3 4 9 9 9 9 (List.replicate 60 0)).1⟩

end ElfModel

namespace ElfModel

set_option maxRecDepth 100000 in
/-- Counterexample to C8 as stated: constructing the reader over `c8file`
— with no call to `parse_dynamic_segment` — succeeds and already populates
the initializer address list from the `.init` section. -/
theorem elf_C8_eager_lifecycle_counterexample :
    (elf_file.construct c8file).last_error = "" ∧
    (elf_file.construct c8file).init_functions = [4660] := by decide

/-- C8, amended: construction eagerly runs identification, header,
segment/section decoding AND the initializer/terminator address-list
assembly, while dynamic-segment resolution, hash-index construction and
relocation reading still run only on demand: whatever the input file,
construction leaves every field those on-demand steps populate empty. -/
theorem elf_C8_construct_frame (file : List Nat) :
    (elf_file.construct file).dynamic_entries = [] ∧
    (elf_file.construct file).dynamic_segment_string_table = [] ∧
    (elf_file.construct file).so_name = 0 ∧
    (elf_file.construct file).needed_libraries = [] ∧
    (elf_file.construct file).dynamic_symbols = [] ∧
    (elf_file.construct file).hash_buckets = [] ∧
    (elf_file.construct file).hash_chains = [] ∧
    (elf_file.construct file).gnu_hash_buckets = [] ∧
    (elf_file.construct file).gnu_hash_values = [] ∧
    (elf_file.construct file).gnu_hash_bloom_words = [] ∧
    (elf_file.construct file).plt_rel_entries = [] ∧
    (elf_file.construct file).dyn_rel_entries = [] ∧
    (elf_file.construct file).plt_rela_entries = [] ∧
    (elf_file.construct file).dyn_rela_entries = [] := by
  unfold elf_file.construct
  split
  · simp [emptyElfFile]
  · split
    · simp [emptyElfFile]
    · split
      · simp [emptyElfFile]
      · split
        · simp [emptyElfFile]
        · split
          · simp [emptyElfFile]
          · simp [emptyElfFile]

end ElfModel

namespace ElfModel

/-- Counterexample to C5 as stated: `parse_hash_tables` accepts a GNU hash
section declaring zero bloom words (the GNU header is never validated), and
symbol lookup over the resulting state throws `std::out_of_range` from
`std::vector::at` — modelled as the error outcome — both in
`lookup_gnu_symbol` and through the public `get_symbol`. -/
theorem elf_C5_lookup_throws_counterexample :
    (parse_hash_tables c5file c5state0).snd = true ∧
    c5state.gnu_hash_bloom_words = [] ∧
    c5state.gnu_hash_buckets = [5] ∧
    lookup_gnu_symbol c5state [97] = .error "vector::at out of range" ∧
    get_symbol c5state [97] 1 = .error "vector::at out of range" := by decide

/-- C5, amended: the GNU lookup raises no exception provided the bloom-word
array is nonempty and every bucket value stays within the symbol table and
(after the omitted-count subtraction) within the hash-value array; outside
those bounds the bounds-checked vector accesses can throw. -/
theorem elf_C5_lookup_no_throw_amended (st : elf_file) (name : List Nat)
    (hw : st.gnu_hash_bloom_words ≠ [])
    (hstart : ∀ b ∈ st.gnu_hash_buckets, b ≤ st.dynamic_symbols.length ∧
      sub64 b st.gnu_hash_omitted_symbols_count ≤ st.gnu_hash_values.length) :
    exOk (lookup_gnu_symbol st name) = true := by
  unfold lookup_gnu_symbol
  dsimp only
  split
  · rfl
  · rename_i hb
    have hlen : 0 < st.gnu_hash_bloom_words.length := List.length_pos.mpr hw
    have hidx : (gnu_hash name / 64) &&& (st.gnu_hash_bloom_words.length - 1) <
        st.gnu_hash_bloom_words.length := by
      have h := Nat.and_le_right (n := gnu_hash name / 64)
        (m := st.gnu_hash_bloom_words.length - 1)
      omega
    split
    · rename_i hnone
      rw [List.get?_eq_get hidx] at hnone
      cases hnone
    · split
      · rfl
      · have hblen : 0 < st.gnu_hash_buckets.length := List.length_pos.mpr hb
        have hbidx : gnu_hash name % st.gnu_hash_buckets.length <
            st.gnu_hash_buckets.length := Nat.mod_lt _ hblen
        split
        · rename_i hnone
          rw [List.get?_eq_get hbidx] at hnone
          cases hnone
        · rename_i startIdx hstartIdx
          split
          · rfl
          · have hmem : startIdx ∈ st.gnu_hash_buckets := List.get?_mem hstartIdx
            have hbounds := hstart startIdx hmem
            split
            · rename_i r hr
              cases r with
              | ok v => rfl
              | error e =>
                exact absurd hr
                  (gnuChainWalkF_no_error st.dynamic_symbols st.gnu_hash_values
                    (gnu_hash name &&& 4294967294) name
                    (st.dynamic_symbols.length + st.gnu_hash_values.length + 2)
                    startIdx (sub64 startIdx st.gnu_hash_omitted_symbols_count)
                    hbounds.1 hbounds.2 e)
            · rename_i hnone
              have hsome := gnuChainWalkF_isSome st.dynamic_symbols st.gnu_hash_values
                (gnu_hash name &&& 4294967294) name
                (st.dynamic_symbols.length + st.gnu_hash_values.length + 2)
                startIdx (sub64 startIdx st.gnu_hash_omitted_symbols_count)
                (by omega)
              rw [hnone] at hsome
              cases hsome

/-- Witness for the amended C5 at a concrete in-bounds table. -/
theorem elf_C5_lookup_no_throw_amended_witness :
    exOk (lookup_gnu_symbol c9state [98]) = true :=
  elf_C5_lookup_no_throw_amended c9state [98] (by decide) (by decide)

end ElfModel
namespace ElfModel

theorem fromLE_toLE_mod (n v : Nat) : fromLEBytes (toLEBytes n v) = v % 256 ^ n := by
  induction n generalizing v with
  | zero => simp [toLEBytes, fromLEBytes, Nat.mod_one]
  | succ n ih =>
    rw [toLEBytes, fromLEBytes, ih, pow_succ, mul_comm (256 ^ n) 256, Nat.mod_mul]

theorem takeLE_toLE_mod (n v : Nat) (rest : List Nat) :
    takeLE n (toLEBytes n v ++ rest) = (v % 256 ^ n, rest) := by
  unfold takeLE
  rw [take_append_len _ _ _ (toLEBytes_length n v),
    drop_append_len _ _ _ (toLEBytes_length n v), fromLE_toLE_mod]

theorem takeLE1_mod (v : Nat) (rest : List Nat) :
    takeLE 1 (toLEBytes 1 v ++ rest) = (v % 256, rest) := by
  have h := takeLE_toLE_mod 1 v rest
  norm_num at h
  exact h

theorem takeLE2_mod (v : Nat) (rest : List Nat) :
    takeLE 2 (toLEBytes 2 v ++ rest) = (v % 65536, rest) := by
  have h := takeLE_toLE_mod 2 v rest
  norm_num at h
  exact h

theorem takeLE4_mod (v : Nat) (rest : List Nat) :
    takeLE 4 (toLEBytes 4 v ++ rest) = (v % 4294967296, rest) := by
  have h := takeLE_toLE_mod 4 v rest
  norm_num at h
  exact h

theorem takeLE8_mod (v : Nat) (rest : List Nat) :
    takeLE 8 (toLEBytes 8 v ++ rest) = (v % 18446744073709551616, rest) := by
  have h := takeLE_toLE_mod 8 v rest
  norm_num at h
  exact h

theorem takeLE1_nil (v : Nat) : takeLE 1 (toLEBytes 1 v) = (v % 256, []) := by
  have h := takeLE1_mod v []
  simpa using h

theorem takeLE2_nil (v : Nat) : takeLE 2 (toLEBytes 2 v) = (v % 65536, []) := by
  have h := takeLE2_mod v []
  simpa using h

theorem takeLE4_nil (v : Nat) : takeLE 4 (toLEBytes 4 v) = (v % 4294967296, []) := by
  have h := takeLE4_mod v []
  simpa using h

theorem takeLE8_nil (v : Nat) : takeLE 8 (toLEBytes 8 v) = (v % 18446744073709551616, []) := by
  have h := takeLE8_mod v []
  simpa using h

end ElfModel
namespace ElfModel

theorem encode32_Ehdr_length (id : List Nat) (h : elf_header) (hid : id.length = 16) :
    (encode_Elf32_Ehdr id h).length = 52 := by
  simp [encode_Elf32_Ehdr, toLEBytes_length, hid]

theorem encode64_Ehdr_length (id : List Nat) (h : elf_header) (hid : id.length = 16) :
    (encode_Elf64_Ehdr id h).length = 64 := by
  simp [encode_Elf64_Ehdr, toLEBytes_length, hid]

theorem readAt_take (l : List Nat) (n : Nat) (h : n ≤ l.length) :
    readAt l 0 n = some (l.take n) := by
  unfold readAt
  rw [if_pos (by omega), List.drop_zero]

theorem readAt_full (l : List Nat) (len : Nat) (h : l.length = len) :
    readAt l 0 len = some l := by
  rw [readAt_take l len (by omega), List.take_of_length_le (by omega)]

theorem encode32_Ehdr_take16 (id : List Nat) (h : elf_header) (hid : id.length = 16) :
    (encode_Elf32_Ehdr id h).take 16 = id := by
  have heq : encode_Elf32_Ehdr id h = id ++ (toLEBytes 2 h.e_type ++ toLEBytes 2 h.e_machine ++
      toLEBytes 4 h.e_version ++ toLEBytes 4 h.e_entry ++ toLEBytes 4 h.e_phoff ++
      toLEBytes 4 h.e_shoff ++ toLEBytes 4 h.e_flags ++ toLEBytes 2 h.e_ehsize ++
      toLEBytes 2 h.e_phentsize ++ toLEBytes 2 h.e_phnum ++ toLEBytes 2 h.e_shentsize ++
      toLEBytes 2 h.e_shnum ++ toLEBytes 2 h.e_shstrndx) := by
    simp [encode_Elf32_Ehdr, List.append_assoc]
  rw [heq, List.take_append_eq_append_take, List.take_of_length_le (by omega), hid]
  simp

theorem encode64_Ehdr_take16 (id : List Nat) (h : elf_header) (hid : id.length = 16) :
    (encode_Elf64_Ehdr id h).take 16 = id := by
  have heq : encode_Elf64_Ehdr id h = id ++ (toLEBytes 2 h.e_type ++ toLEBytes 2 h.e_machine ++
      toLEBytes 4 h.e_version ++ toLEBytes 8 h.e_entry ++ toLEBytes 8 h.e_phoff ++
      toLEBytes 8 h.e_shoff ++ toLEBytes 4 h.e_flags ++ toLEBytes 2 h.e_ehsize ++
      toLEBytes 2 h.e_phentsize ++ toLEBytes 2 h.e_phnum ++ toLEBytes 2 h.e_shentsize ++
      toLEBytes 2 h.e_shnum ++ toLEBytes 2 h.e_shstrndx) := by
    simp [encode_Elf64_Ehdr, List.append_assoc]
  rw [heq, List.take_append_eq_append_take, List.take_of_length_le (by omega), hid]
  simp

theorem rEH_encode32 (id : List Nat) (h : elf_header) (hid : id.length = 16)
    (hcls : (decodeIdent id).ei_class = 1) :
    read_elf_header (encode_Elf32_Ehdr id h) =
      .ok (decode_Elf32_Ehdr (encode_Elf32_Ehdr id h)) := by
  unfold read_elf_header
  rw [readAt_take _ 16 (by rw [encode32_Ehdr_length id h hid]; omega)]
  simp only [encode32_Ehdr_take16 id h hid, hcls]
  norm_num
  rw [readAt_full _ 52 (encode32_Ehdr_length id h hid)]

theorem rEH_encode64 (id : List Nat) (h : elf_header) (hid : id.length = 16)
    (hcls : (decodeIdent id).ei_class = 2) :
    read_elf_header (encode_Elf64_Ehdr id h) =
      .ok (decode_Elf64_Ehdr (encode_Elf64_Ehdr id h)) := by
  unfold read_elf_header
  rw [readAt_take _ 16 (by rw [encode64_Ehdr_length id h hid]; omega)]
  simp only [encode64_Ehdr_take16 id h hid, hcls]
  norm_num
  rw [readAt_full _ 64 (encode64_Ehdr_length id h hid)]

end ElfModel
namespace ElfModel

theorem headerFields_decode32_encode (id : List Nat) (h : elf_header)
    (hid : id.length = 16) :
    headerFields (decode_Elf32_Ehdr (encode_Elf32_Ehdr id h)) =
      [h.e_type % 65536, h.e_machine % 65536, h.e_version % 4294967296,
        h.e_entry % 4294967296, h.e_phoff % 4294967296, h.e_shoff % 4294967296,
        h.e_flags % 4294967296, h.e_ehsize % 65536, h.e_phentsize % 65536,
        h.e_phnum % 65536, h.e_shentsize % 65536, h.e_shnum % 65536,
        h.e_shstrndx % 65536] := by
  unfold encode_Elf32_Ehdr decode_Elf32_Ehdr
  simp only [List.append_assoc]
  rw [drop_append_len id _ 16 hid]
  simp only [takeLE2_mod, takeLE4_mod, takeLE2_nil, headerFields]

theorem headerFields_decode64_encode (id : List Nat) (h : elf_header)
    (hid : id.length = 16) :
    headerFields (decode_Elf64_Ehdr (encode_Elf64_Ehdr id h)) =
      [h.e_type % 65536, h.e_machine % 65536, h.e_version % 4294967296,
        h.e_entry % 18446744073709551616, h.e_phoff % 18446744073709551616,
        h.e_shoff % 18446744073709551616, h.e_flags % 4294967296, h.e_ehsize % 65536,
        h.e_phentsize % 65536, h.e_phnum % 65536, h.e_shentsize % 65536,
        h.e_shnum % 65536, h.e_shstrndx % 65536] := by
  unfold encode_Elf64_Ehdr decode_Elf64_Ehdr
  simp only [List.append_assoc]
  rw [drop_append_len id _ 16 hid]
  simp only [takeLE2_mod, takeLE4_mod, takeLE8_mod, takeLE2_nil, headerFields]

end ElfModel
namespace ElfModel

/-- C4: decoding a 32-bit on-disk record and a 64-bit on-disk record that
encode the same logical field values yields identical unified in-memory
representations, for the file header (identification aside, which carries
the differing class byte), segment descriptors, section descriptors and
symbol entries; the 64-bit decode moreover reproduces the logical values
exactly. -/
theorem elf_C4_width_equivalence :
    (∀ (id32 id64 : List Nat) (h : elf_header),
      id32.length = 16 → id64.length = 16 →
      (decodeIdent id32).ei_class = 1 → (decodeIdent id64).ei_class = 2 →
      h.e_type < 65536 → h.e_machine < 65536 → h.e_version < 4294967296 →
      h.e_entry < 4294967296 → h.e_phoff < 4294967296 → h.e_shoff < 4294967296 →
      h.e_flags < 4294967296 → h.e_ehsize < 65536 → h.e_phentsize < 65536 →
      h.e_phnum < 65536 → h.e_shentsize < 65536 → h.e_shnum < 65536 →
      h.e_shstrndx < 65536 →
      Except.map headerFields (read_elf_header (encode_Elf32_Ehdr id32 h)) =
        Except.map headerFields (read_elf_header (encode_Elf64_Ehdr id64 h)) ∧
      Except.map headerFields (read_elf_header (encode_Elf64_Ehdr id64 h)) =
        .ok (headerFields h)) ∧
    (∀ p : elf_program_header, p.p_type < 4294967296 → p.p_flags < 4294967296 →
      p.p_offset < 4294967296 → p.p_vaddr < 4294967296 → p.p_paddr < 4294967296 →
      p.p_filesz < 4294967296 → p.p_memsz < 4294967296 → p.p_align < 4294967296 →
      decode_Elf32_Phdr (encode_Elf32_Phdr p) = decode_Elf64_Phdr (encode_Elf64_Phdr p) ∧
      decode_Elf64_Phdr (encode_Elf64_Phdr p) = p) ∧
    (∀ s : elf_section_header, s.sh_name < 4294967296 → s.sh_type < 4294967296 →
      s.sh_flags < 4294967296 → s.sh_addr < 4294967296 → s.sh_offset < 4294967296 →
      s.sh_size < 4294967296 → s.sh_link < 4294967296 → s.sh_info < 4294967296 →
      s.sh_addralign < 4294967296 → s.sh_entsize < 4294967296 → s.sh_name_str = [] →
      decode_Elf32_Shdr (encode_Elf32_Shdr s) = decode_Elf64_Shdr (encode_Elf64_Shdr s) ∧
      decode_Elf64_Shdr (encode_Elf64_Shdr s) = s) ∧
    (∀ s : elf_symbol, s.st_name < 4294967296 → s.st_value < 4294967296 →
      s.st_size < 4294967296 → s.st_info < 256 → s.st_other < 256 →
      s.st_shndx < 65536 → s.st_name_str = [] →
      decode_Elf32_Sym (encode_Elf32_Sym s) = decode_Elf64_Sym (encode_Elf64_Sym s) ∧
      decode_Elf64_Sym (encode_Elf64_Sym s) = s) := by
  refine ⟨?_, ?_, ?_, ?_⟩
  · intro id32 id64 h hid32 hid64 hcls32 hcls64 b1 b2 b3 b4 b5 b6 b7 b8 b9 b10 b11 b12 b13
    have h32 := rEH_encode32 id32 h hid32 hcls32
    have h64 := rEH_encode64 id64 h hid64 hcls64
    rw [h32, h64]
    simp only [Except.map]
    rw [headerFields_decode32_encode id32 h hid32,
      headerFields_decode64_encode id64 h hid64]
    have hflds : headerFields h = [h.e_type, h.e_machine, h.e_version, h.e_entry,
      h.e_phoff, h.e_shoff, h.e_flags, h.e_ehsize, h.e_phentsize, h.e_phnum,
      h.e_shentsize, h.e_shnum, h.e_shstrndx] := rfl
    constructor
    · simp only [Except.ok.injEq, List.cons.injEq, and_true, true_and]
      omega
    · rw [hflds]
      simp only [Except.ok.injEq, List.cons.injEq, and_true, true_and]
      omega
  · intro p h1 h2 h3 h4 h5 h6 h7 h8
    obtain ⟨pt, pf, po, pv, pp, pfs, pm, pa⟩ := p
    simp only [encode_Elf32_Phdr, encode_Elf64_Phdr, decode_Elf32_Phdr, decode_Elf64_Phdr,
      List.append_assoc, takeLE4_mod, takeLE8_mod, takeLE4_nil, takeLE8_nil]
      at h1 h2 h3 h4 h5 h6 h7 h8 ⊢
    constructor
    · simp only [elf_program_header.mk.injEq, true_and, and_true]
      omega
    · simp only [elf_program_header.mk.injEq, true_and, and_true]
      omega
  · intro s h1 h2 h3 h4 h5 h6 h7 h8 h9 h10 h11
    obtain ⟨n, t, f, a, o, sz, l, i, al, es, ns⟩ := s
    simp only at h11
    subst h11
    simp only [encode_Elf32_Shdr, encode_Elf64_Shdr, decode_Elf32_Shdr, decode_Elf64_Shdr,
      List.append_assoc, takeLE4_mod, takeLE8_mod, takeLE4_nil, takeLE8_nil]
      at h1 h2 h3 h4 h5 h6 h7 h8 h9 h10 ⊢
    constructor
    · simp only [elf_section_header.mk.injEq, true_and, and_true]
      omega
    · simp only [elf_section_header.mk.injEq, true_and, and_true]
      omega
  · intro s h1 h2 h3 h4 h5 h6 h7
    obtain ⟨n, v, sz, i, o, sx, ns⟩ := s
    simp only at h7
    subst h7
    simp only [encode_Elf32_Sym, encode_Elf64_Sym, decode_Elf32_Sym, decode_Elf64_Sym,
      List.append_assoc, takeLE4_mod, takeLE8_mod, takeLE2_mod, takeLE1_mod,
      takeLE4_nil, takeLE8_nil, takeLE2_nil, takeLE1_nil]
      at h1 h2 h3 h4 h5 h6 ⊢
    constructor
    · simp only [elf_symbol.mk.injEq, true_and, and_true]
      omega
    · simp only [elf_symbol.mk.injEq, true_and, and_true]
      omega

/-- Witness for C4 at concrete identification bytes and field values. -/
theorem elf_C4_width_equivalence_witness :
    (Except.map headerFields (read_elf_header (encode_Elf32_Ehdr
        [127, 69, 76, 70, 1, 1, 1, 0, 0, 0, 0, 0, 0, 0, 0, 0]
        ⟨⟨[], 0, 0, 0, 0, 0, []⟩, 3, 62, 1, 100, 52, 0, 0, 52, 32, 1, 40, 0, 0⟩)) =
      Except.map headerFields (read_elf_header (encode_Elf64_Ehdr
        [127, 69, 76, 70, 2, 1, 1, 0, 0, 0, 0, 0, 0, 0, 0, 0]
        ⟨⟨[], 0, 0, 0, 0, 0, []⟩, 3, 62, 1, 100, 52, 0, 0, 52, 32, 1, 40, 0, 0⟩))) ∧
    decode_Elf32_Phdr (encode_Elf32_Phdr ⟨1, 5, 0, 4096, 4096, 8, 8, 16⟩) =
      decode_Elf64_Phdr (encode_Elf64_Phdr ⟨1, 5, 0, 4096, 4096, 8, 8, 16⟩) ∧
    decode_Elf32_Shdr (encode_Elf32_Shdr ⟨1, 11, 2, 64, 64, 24, 3, 0, 8, 24, []⟩) =
      decode_Elf64_Shdr (encode_Elf64_Shdr ⟨1, 11, 2, 64, 64, 24, 3, 0, 8, 24, []⟩) ∧
    decode_Elf32_Sym (encode_Elf32_Sym ⟨7, 4096, 16, 18, 0, 1, []⟩) =
      decode_Elf64_Sym (encode_Elf64_Sym ⟨7, 4096, 16, 18, 0, 1, []⟩) :=
  ⟨((elf_C4_width_equivalence.1
      [127, 69, 76, 70, 1, 1, 1, 0, 0, 0, 0, 0, 0, 0, 0, 0]
      [127, 69, 76, 70, 2, 1, 1, 0, 0, 0, 0, 0, 0, 0, 0, 0]
      ⟨⟨[], 0, 0, 0, 0, 0, []⟩, 3, 62, 1, 100, 52, 0, 0, 52, 32, 1, 40, 0, 0⟩
      (by decide) (by decide) (by decide) (by decide) (by decide) (by decide)
      (by decide) (by decide) (by decide) (by decide) (by decide) (by decide)
      (by decide) (by decide) (by decide) (by decide) (by decide))).1,
    (elf_C4_width_equivalence.2.1 ⟨1, 5, 0, 4096, 4096, 8, 8, 16⟩ (by decide) (by decide)
      (by decide) (by decide) (by decide) (by decide) (by decide) (by decide)).1,
    (elf_C4_width_equivalence.2.2.1 ⟨1, 11, 2, 64, 64, 24, 3, 0, 8, 24, []⟩ (by decide)
      (by decide) (by decide) (by decide) (by decide) (by decide) (by decide) (by decide)
      (by decide) (by decide) (by decide)).1,
    (elf_C4_width_equivalence.2.2.2 ⟨7, 4096, 16, 18, 0, 1, []⟩ (by decide) (by decide)
      (by decide) (by decide) (by decide) (by decide) (by decide)).1⟩

end ElfModel
namespace ElfModel

/-- C7: once `parse_dynamic_segment` has located the dynamic segment,
decoded its entries, found the string/symbol-table metadata, read the
string table and found the `SHT_DYNSYM` section, the derived symbol-table
file offset must equal the section's declared offset: a mismatch fails
with "Symbol table offsets don't match" and returns false, while equality
lets the operation proceed to the symbol-table read. -/
theorem elf_C7_symtab_offset_check (file : List Nat) (st : elf_file)
    (dh : elf_program_header) (entries : List elf_dynamic) (strtab : List Nat)
    (symsh : elf_section_header)
    (h1 : find_dynamic_header st.program_headers = some dh)
    (h2 : read_dynamic_entries file st.header dh = .ok entries)
    (h4 : (scan_dynamic_entries st.base_address entries).strtab_off ≠ 0)
    (h5 : (scan_dynamic_entries st.base_address entries).strsz ≠ 0)
    (h6 : (scan_dynamic_entries st.base_address entries).symtab_off ≠ 0)
    (h7 : (scan_dynamic_entries st.base_address entries).syment ≠ 0)
    (h8 : readAt file (scan_dynamic_entries st.base_address entries).strtab_off
        (scan_dynamic_entries st.base_address entries).strsz = some strtab)
    (h9 : find_symbol_table_header st.section_headers = some symsh) :
    ((scan_dynamic_entries st.base_address entries).symtab_off ≠ symsh.sh_offset →
      (parse_dynamic_segment file st).snd = false ∧
        (parse_dynamic_segment file st).fst.last_error =
          "Symbol table offsets don't match") ∧
    ((scan_dynamic_entries st.base_address entries).symtab_off = symsh.sh_offset →
      parse_dynamic_segment file st =
        parse_dyn_after_offset_check file
          { st with dynamic_entries := entries,
                    dynamic_segment_string_table := strtab,
                    so_name := (scan_dynamic_entries st.base_address entries).so_name_off,
                    needed_libraries :=
                      (scan_dynamic_entries st.base_address entries).needed_offs }
          (scan_dynamic_entries st.base_address entries) symsh) := by
  have hbody : parse_dynamic_segment file st =
      (if (scan_dynamic_entries st.base_address entries).symtab_off ≠ symsh.sh_offset then
        ({ st with dynamic_entries := entries,
                   dynamic_segment_string_table := strtab,
                   so_name := (scan_dynamic_entries st.base_address entries).so_name_off,
                   needed_libraries :=
                     (scan_dynamic_entries st.base_address entries).needed_offs,
                   last_error := "Symbol table offsets don't match" }, false)
      else
        parse_dyn_after_offset_check file
          { st with dynamic_entries := entries,
                    dynamic_segment_string_table := strtab,
                    so_name := (scan_dynamic_entries st.base_address entries).so_name_off,
                    needed_libraries :=
                      (scan_dynamic_entries st.base_address entries).needed_offs }
          (scan_dynamic_entries st.base_address entries) symsh) := by
    unfold parse_dynamic_segment
    rw [h1]
    simp only [h2]
    rw [if_neg (not_or.mpr ⟨h4, h5⟩), if_neg (not_or.mpr ⟨h6, h7⟩)]
    simp only [h8, h9]
  constructor
  · intro hne
    rw [hbody, if_pos hne]
    exact ⟨rfl, rfl⟩
  · intro heq
    rw [hbody, if_neg (by simpa using heq)]

end ElfModel

namespace ElfModel

/-- Witness for C7: the dynamic segment of `w7file` resolves its symbol
table to offset 200, the `SHT_DYNSYM` section declares 999, and the parse
fails with the offsets-mismatch error. -/
theorem elf_C7_symtab_offset_check_witness :
    (parse_dynamic_segment w7file w7st).snd = false ∧
    (parse_dynamic_segment w7file w7st).fst.last_error =
      "Symbol table offsets don't match" :=
  (elf_C7_symtab_offset_check w7file w7st w7dh w7entries (List.replicate 8 0) w7symsh
      (by decide) (by decide) (by decide) (by decide) (by decide) (by decide)
      (by decide) (by decide)).1 (by decide)

end ElfModel
